import Mathlib

/-!
Verification development for the motion-planning and kinematics engine of the
rdk repository (frame system, constraint and collision engine, move-request
supervisor).  Go float64 arithmetic is embedded with exact rational numbers;
fallible Go functions are embedded as functions into `Except`; a Go nil
pointer or nil slice is embedded as `Option.none`.  Definitions carry the
source file and line they embed; definitions whose implementation is not part
of the sources are marked `Modelled from the spec:` in their doc comment.
-/

/-- A 3D vector with exact rational coordinates; embeds `r3.Vector` (float64
coordinates in the source). -/
structure Vec3 where
  x : ℚ
  y : ℚ
  z : ℚ
deriving DecidableEq

/-- The zero vector. -/
def Vec3.zero : Vec3 := ⟨0, 0, 0⟩

/-- Scalar multiplication of a vector. -/
def Vec3.scale (c : ℚ) (v : Vec3) : Vec3 := ⟨c * v.x, c * v.y, c * v.z⟩

/-- Squared Euclidean norm. -/
def Vec3.normSq (v : Vec3) : ℚ := v.x * v.x + v.y * v.y + v.z * v.z

/-- Squared Euclidean distance between two points. -/
def Vec3.distSq (a b : Vec3) : ℚ :=
  (a.x - b.x) * (a.x - b.x) + (a.y - b.y) * (a.y - b.y) + (a.z - b.z) * (a.z - b.z)

/-- Modelled from the spec: an orientation in axis-angle form (`spatialmath.R4AA`
in the source; the spec requires only that orientations compose and admit a
distance, and no claim depends on a particular parametrization). -/
structure Orient where
  ax : Vec3
  theta : ℚ
deriving DecidableEq

/-- The identity orientation. -/
def Orient.zero : Orient := ⟨⟨0, 0, 1⟩, 0⟩

/-- The rotation vector (axis scaled by angle) of an orientation. -/
def Orient.rotVec (o : Orient) : Vec3 := Vec3.scale o.theta o.ax

/-- Modelled from the spec: squared orientation distance, as the squared norm of
the difference of rotation vectors (`spatialmath` orientation distance is not
under src; only its role in `PathStepCount` matters to the claims). -/
def orientDistSq (a b : Orient) : ℚ := Vec3.distSq a.rotVec b.rotVec

/-- A pose: a position plus an orientation (spec section 3, `spatialmath.Pose`). -/
structure Pose where
  pt : Vec3
  orient : Orient
deriving DecidableEq

/-- The zero pose. -/
def Pose.zero : Pose := ⟨Vec3.zero, Orient.zero⟩

/-- A single degree-of-freedom limit `{Min, Max}` (`referenceframe.Limit`). -/
structure Limit where
  min : ℚ
  max : ℚ
deriving DecidableEq

/-- Errors returned by the `Transform` of a frame.  The data carried mirrors
what the source puts into the error strings: the wrong-length error carries the
two lengths, and the out-of-bounds error is built from exactly the offending
value and the violated limit — frame_test.go lines 64-68 and 100-104 pin the
error to `errors.Errorf("%.5f %s %.5f", value, OOBErrString, limit)`, a
function of the value and the limit alone. -/
inductive FrameError where
  | wrongLength (got expected : Nat)
  | oob (value : ℚ) (limit : Limit)
deriving DecidableEq

/-- Exact rational square root, when one exists: the candidate is read off the
reduced numerator and denominator and checked by squaring. -/
def ratSqrtExact (q : ℚ) : Option ℚ :=
  let c : ℚ := (Nat.sqrt q.num.toNat : ℚ) / (Nat.sqrt q.den : ℚ)
  if c * c = q then some c else none

/-- Modelled from the spec: `axis.Normalize()` as used by the frame
constructors (not under src).  Exact whenever the squared norm has a rational
square root, which covers every axis appearing in the tests; other axes are
kept as given, which no claim exercises. -/
def Vec3.normalize (v : Vec3) : Vec3 :=
  match ratSqrtExact v.normSq with
  | some n => if n = 0 then v else Vec3.scale (1 / n) v
  | none => v

/-- Modelled from the spec: a translational (prismatic) frame, 1 DOF along a
unit axis (spec section 3; `referenceframe.translationalFrame` is not under
src, its behavior is pinned by frame_test.go TestPrismaticFrame). -/
structure translationalFrame where
  name : String
  transAxis : Vec3
  limit : Limit
deriving DecidableEq

/-- Modelled from the spec: the translational-frame constructor stores the
normalized axis (frame_test.go lines 41-52). -/
def NewTranslationalFrame (name : String) (axis : Vec3) (limit : Limit) : translationalFrame :=
  { name := name, transAxis := axis.normalize, limit := limit }

/-- Modelled from the spec: `Transform` of a translational frame validates the
input length against the single DOF, then the limit (strictly outside
`{min,max}` errors with the value and the limit; a boundary value passes), and
scales the unit axis by the scalar input (spec sections 4.1 and 8;
frame_test.go lines 41-79). -/
def translationalFrame.Transform (f : translationalFrame) (inputs : List ℚ) :
    Except FrameError Pose :=
  match inputs with
  | [v] =>
    if v < f.limit.min ∨ v > f.limit.max then Except.error (FrameError.oob v f.limit)
    else Except.ok { pt := Vec3.scale v f.transAxis, orient := Orient.zero }
  | _ => Except.error (FrameError.wrongLength inputs.length 1)

/-- Modelled from the spec: a rotational (revolute) frame, 1 DOF about a unit
axis (spec section 3; behavior pinned by frame_test.go TestRevoluteFrame). -/
structure rotationalFrame where
  name : String
  rotAxis : Vec3
  limit : Limit
deriving DecidableEq

/-- Modelled from the spec: the rotational-frame constructor stores the
normalized axis. -/
def NewRotationalFrame (name : String) (axis : Vec3) (limit : Limit) : rotationalFrame :=
  { name := name, rotAxis := axis.normalize, limit := limit }

/-- Modelled from the spec: `Transform` of a rotational frame validates length
and limit exactly as the translational frame does, and yields a rotation about
the axis by the input angle (frame_test.go lines 82-110). -/
def rotationalFrame.Transform (f : rotationalFrame) (inputs : List ℚ) :
    Except FrameError Pose :=
  match inputs with
  | [v] =>
    if v < f.limit.min ∨ v > f.limit.max then Except.error (FrameError.oob v f.limit)
    else Except.ok { pt := Vec3.zero, orient := { ax := f.rotAxis, theta := v } }
  | _ => Except.error (FrameError.wrongLength inputs.length 1)

/-- The `referenceframe.Frame` interface as the constraint engine uses it
(part_005): a name and a fallible `Transform`. -/
structure Frame where
  name : String
  transform : List ℚ → Except FrameError Pose

/-- `motionplan.SegmentInput` (part_005 lines 16-22): start and end
configurations with possibly missing poses, and the frame they refer to
(possibly nil). -/
structure SegmentInput where
  StartPosition : Option Pose
  EndPosition : Option Pose
  StartConfiguration : Option (List ℚ)
  EndConfiguration : Option (List ℚ)
  frame : Option Frame

/-- `motionplan.StateInput` (part_005 lines 64-68). -/
structure StateInput where
  Position : Option Pose
  Configuration : Option (List ℚ)
  frame : Option Frame

/-- Failure modes of `resolveInputsToPositions`: the source returns either
`errors.New("invalid constraint input")` (missing frame or configuration) or
the error of the frame's `Transform`. -/
inductive ResolveError where
  | invalidInput
  | transformFailed (e : FrameError)
deriving DecidableEq

/-- part_005 lines 26-41: fill in `StartPosition` from the frame and the start
configuration when it is missing. -/
def SegmentInput.resolveStart (ci : SegmentInput) : Except ResolveError SegmentInput :=
  match ci.StartPosition with
  | some _ => Except.ok ci
  | none =>
    match ci.frame with
    | none => Except.error ResolveError.invalidInput
    | some f =>
      match ci.StartConfiguration with
      | none => Except.error ResolveError.invalidInput
      | some conf =>
        match f.transform conf with
        | Except.ok pos => Except.ok { ci with StartPosition := some pos }
        | Except.error e => Except.error (ResolveError.transformFailed e)

/-- part_005 lines 42-57: fill in `EndPosition` from the frame and the end
configuration when it is missing. -/
def SegmentInput.resolveEnd (ci : SegmentInput) : Except ResolveError SegmentInput :=
  match ci.EndPosition with
  | some _ => Except.ok ci
  | none =>
    match ci.frame with
    | none => Except.error ResolveError.invalidInput
    | some f =>
      match ci.EndConfiguration with
      | none => Except.error ResolveError.invalidInput
      | some conf =>
        match f.transform conf with
        | Except.ok pos => Except.ok { ci with EndPosition := some pos }
        | Except.error e => Except.error (ResolveError.transformFailed e)

/-- part_005 lines 25-59: `(*SegmentInput).resolveInputsToPositions`, resolving
the start pose and then the end pose. -/
def SegmentInput.resolveInputsToPositions (ci : SegmentInput) :
    Except ResolveError SegmentInput :=
  match ci.resolveStart with
  | Except.error e => Except.error e
  | Except.ok ci1 => ci1.resolveEnd

/-- part_005 lines 71-89: `(*StateInput).resolveInputsToPositions`. -/
def StateInput.resolveInputsToPositions (ci : StateInput) : Except ResolveError StateInput :=
  match ci.Position with
  | some _ => Except.ok ci
  | none =>
    match ci.frame with
    | none => Except.error ResolveError.invalidInput
    | some f =>
      match ci.Configuration with
      | none => Except.error ResolveError.invalidInput
      | some conf =>
        match f.transform conf with
        | Except.ok pos => Except.ok { ci with Position := some pos }
        | Except.error e => Except.error (ResolveError.transformFailed e)

/-- `motionplan.SegmentConstraint` (part_005 line 93). -/
abbrev SegmentConstraint := SegmentInput → Bool

/-- `motionplan.StateConstraint` (part_005 line 97). -/
abbrev StateConstraint := StateInput → Bool

/-- `motionplan.ConstraintHandler` (part_005 lines 101-104).  The Go maps keyed
by name are embedded as association lists; Go map iteration order is
unspecified, and only the boolean component of the checks below, which is
order-independent, is relied on by any claim. -/
structure ConstraintHandler where
  segmentConstraints : List (String × SegmentConstraint)
  stateConstraints : List (String × StateConstraint)

/-- part_005 lines 110-118: check one state against all state constraints,
returning the first failing name if any. -/
def ConstraintHandler.CheckStateConstraints (c : ConstraintHandler) (cInput : StateInput) :
    Bool × String :=
  match c.stateConstraints.find? (fun nc => ! nc.2 cInput) with
  | some nc => (false, nc.1)
  | none => (true, "")

/-- part_005 lines 124-132: check one segment against all segment constraints. -/
def ConstraintHandler.CheckSegmentConstraints (c : ConstraintHandler) (cInput : SegmentInput) :
    Bool × String :=
  match c.segmentConstraints.find? (fun nc => ! nc.2 cInput) with
  | some nc => (false, nc.1)
  | none => (true, "")

/-- Modelled from the spec: `motionplan.PathStepCount` (not under src) — the
number of interpolation steps is proportional to the larger of the Cartesian
and the orientation distance travelled, divided by the resolution, and is at
least 1.  With exact squared distances, `Nat.sqrt ⌊dSq / resSq⌋ = ⌊dist / res⌋`,
so this is the floor of distance over resolution, plus one.  A zero resolution
falls back to a resolution of 1. -/
def PathStepCount (startPos endPos : Pose) (resolution : ℚ) : Nat :=
  let resSq : ℚ := if resolution = 0 then 1 else resolution * resolution
  let dSq : ℚ := max (Vec3.distSq startPos.pt endPos.pt)
    (orientDistSq startPos.orient endPos.orient)
  Nat.sqrt (Int.toNat ⌊dSq / resSq⌋) + 1

/-- Modelled from the spec: `referenceframe.InterpolateInputs` (not under src)
— joint-space linear interpolation, each coordinate moving the fraction `t` of
the way from the first configuration to the second. -/
def InterpolateInputs (startConf endConf : List ℚ) (t : ℚ) : List ℚ :=
  List.zipWith (fun a b => a + (b - a) * t) startConf endConf

/-- The interpolated configuration at step `i` of `steps` (part_005 lines
149-150); a missing Go configuration is a nil slice, over which interpolation
yields a nil slice again, hence the defaults. -/
def interpConfigAt (startConf endConf : Option (List ℚ)) (steps i : Nat) : List ℚ :=
  InterpolateInputs (startConf.getD []) (endConf.getD []) ((i : ℚ) / (steps : ℚ))

/-- The `StateInput` built at step `i` (part_005 line 151).  In Go an
interpolation of nil slices is again nil, so an empty interpolated
configuration is recorded as a missing one. -/
def stateInputAt (f : Option Frame) (startConf endConf : Option (List ℚ)) (steps i : Nat) :
    StateInput :=
  { Position := none
  , Configuration :=
      match interpConfigAt startConf endConf steps i with
      | [] => none
      | l => some l
  , frame := f }

/-- part_005 lines 146-165: the loop of `CheckStateConstraintsAcrossSegment`,
with `fuel` counting the remaining iterations (`steps + 1 - i`) and `lastGood`
the configuration of the last state that passed all state constraints. -/
def ConstraintHandler.checkAcrossAux (c : ConstraintHandler) (f : Option Frame)
    (startConf endConf : Option (List ℚ)) (steps : Nat) :
    Nat → Nat → Option (List ℚ) → Bool × Option SegmentInput
  | 0, _, _ => (true, none)
  | fuel + 1, i, lastGood =>
    match (stateInputAt f startConf endConf steps i).resolveInputsToPositions with
    | Except.error _ => (false, none)
    | Except.ok interpR =>
      if (c.CheckStateConstraints interpR).1 = false then
        if i = 0 then (false, none)
        else
          (false, some { StartPosition := none, EndPosition := none,
                         StartConfiguration := startConf,
                         EndConfiguration := lastGood, frame := none })
      else
        c.checkAcrossAux f startConf endConf steps fuel (i + 1)
          (stateInputAt f startConf endConf steps i).Configuration

/-- The step count used across a resolved segment (part_005 line 144). -/
def SegmentInput.stepsOf (ci : SegmentInput) (resolution : ℚ) : Nat :=
  PathStepCount (ci.StartPosition.getD Pose.zero) (ci.EndPosition.getD Pose.zero) resolution

/-- part_005 lines 138-168: `CheckStateConstraintsAcrossSegment` resolves the
endpoint poses, computes the step count from them, and walks the joint-space
interpolation from step 0 through `steps` inclusive, returning `(true, none)`
when every state passes, `(false, none)` when resolution or the very first
state fails, and otherwise `false` with the valid portion of the segment. -/
def ConstraintHandler.CheckStateConstraintsAcrossSegment (c : ConstraintHandler)
    (ci : SegmentInput) (resolution : ℚ) : Bool × Option SegmentInput :=
  match ci.resolveInputsToPositions with
  | Except.error _ => (false, none)
  | Except.ok cir =>
    let steps := cir.stepsOf resolution
    c.checkAcrossAux cir.frame cir.StartConfiguration cir.EndConfiguration steps (steps + 1) 0 none

/-- part_005 lines 173-189: `CheckSegmentAndStateValidity` checks the segment
constraints on the endpoint pair, then the state constraints across the
segment; a failing sub-segment is reported only when it passes the segment
constraints itself. -/
def ConstraintHandler.CheckSegmentAndStateValidity (c : ConstraintHandler)
    (cInput : SegmentInput) (resolution : ℚ) : Bool × Option SegmentInput :=
  if (c.CheckSegmentConstraints cInput).1 = false then (false, none)
  else
    match c.CheckStateConstraintsAcrossSegment cInput resolution with
    | (valid, subSegment) =>
      if valid = false then
        match subSegment with
        | some sub =>
          if (c.CheckSegmentConstraints sub).1 then (false, some sub) else (false, none)
        | none => (false, none)
      else (true, none)

/-- `referenceframe.World`: the reserved root frame name. -/
def World : String := "world"

/-- part_002 line 12. -/
def FixedJoint : String := "fixed"

/-- part_002 line 13. -/
def ContinuousJoint : String := "continuous"

/-- part_002 line 14. -/
def PrismaticJoint : String := "prismatic"

/-- part_002 line 15. -/
def RevoluteJoint : String := "revolute"

/-- part_002 lines 24-29: `LinkConfig`; its orientation is embedded already
parsed (`OrientationConfig` parsing is not under src and no claim touches a
failing orientation). -/
structure LinkConfig where
  id : String
  translation : Vec3
  orientation : Option Orient
  parent : String
deriving DecidableEq

/-- part_002 lines 32-40: `JointConfig` (the optional geometry is omitted: no
claim touches it). -/
structure JointConfig where
  id : String
  typ : String
  parent : String
  axis : Vec3
  max : ℚ
  min : ℚ
deriving DecidableEq

/-- part_002 lines 43-52: `DHParamConfig` (optional geometry omitted). -/
structure DHParamConfig where
  id : String
  parent : String
  a : ℚ
  d : ℚ
  alpha : ℚ
  max : ℚ
  min : ℚ
deriving DecidableEq

/-- Modelled from the spec: `utils.DegToRad` (not under src); over ℚ the
scaling constant is a fixed rational approximation of pi over 180, and no
claim depends on its exact value, only on the conversion being applied. -/
def DegToRad (d : ℚ) : ℚ := d * (3141592653589793 / 180000000000000000)

/-- The frames a kinematic-chain description resolves to. -/
inductive ModelFrame where
  | static (name : String) (pose : Pose)
  | translational (f : translationalFrame)
  | rotational (f : rotationalFrame)
deriving DecidableEq

/-- The name of a model frame. -/
def ModelFrame.name : ModelFrame → String
  | .static n _ => n
  | .translational f => f.name
  | .rotational f => f.name

/-- Construction-time failures of kinematic-chain parsing; each constructor
embeds one Go error of `ModelConfig.ParseConfig` or `JointConfig.ToFrame`
(reserved world name, unsupported joint type, end-effector count, unsupported
kinematic parameter type, and the modelled ordering failure). -/
inductive ParseErr where
  | reservedWorldLink
  | reservedWorldJoint
  | unsupportedJointType (typ : String)
  | moreThanOneEndEffector
  | needOneEndEffector
  | unsupportedParamType (typ : String)
  | malformedChain
deriving DecidableEq

/-- part_002 lines 117-128: `JointConfig.ToFrame` — a revolute joint becomes a
rotational frame with limits converted from degrees to radians, a prismatic
joint a translational frame; every other type, including the declared "fixed"
and "continuous" kinds, is rejected with `NewUnsupportedJointTypeError`. -/
def JointConfig.ToFrame (cfg : JointConfig) : Except ParseErr ModelFrame :=
  if cfg.typ == RevoluteJoint then
    Except.ok (ModelFrame.rotational (NewRotationalFrame cfg.id cfg.axis
      { min := DegToRad cfg.min, max := DegToRad cfg.max }))
  else if cfg.typ == PrismaticJoint then
    Except.ok (ModelFrame.translational (NewTranslationalFrame cfg.id cfg.axis
      { min := cfg.min, max := cfg.max }))
  else Except.error (ParseErr.unsupportedJointType cfg.typ)

/-- Modelled from the spec: `LinkConfig.ToStaticFrame` (not under src) — a
link is a static frame at its configured translation and orientation. -/
def LinkConfig.ToStaticFrame (cfg : LinkConfig) (name : String) : ModelFrame :=
  ModelFrame.static name { pt := cfg.translation, orient := cfg.orientation.getD Orient.zero }

/-- Modelled from the spec: `spatialmath.NewPoseFromDH` (not under src) — the
static pose of one Denavit-Hartenberg row; every claim is independent of the
exact trigonometric form, which is therefore fixed arbitrarily as a function
of (a, d, alpha). -/
def NewPoseFromDH (a d alpha : ℚ) : Pose :=
  { pt := { x := a, y := 0, z := d },
    orient := { ax := { x := 1, y := 0, z := 0 }, theta := alpha } }

/-- Insert-or-overwrite into an association list (one Go map write). -/
def assocPut (l : List (String × α)) (k : String) (v : α) : List (String × α) :=
  (k, v) :: l.filter (fun p => p.1 != k)

/-- frame_test.go ParseConfig lines 294-300: record every link as a static
frame keyed by its id, and its parent in the parent map. -/
def addLinks : List LinkConfig → List (String × ModelFrame) × List (String × String) →
    List (String × ModelFrame) × List (String × String)
  | [], acc => acc
  | link :: rest, (ts, pm) =>
    addLinks rest (assocPut ts link.id (link.ToStaticFrame link.id),
      assocPut pm link.id link.parent)

/-- frame_test.go ParseConfig lines 303-310: record every joint through
`ToFrame`, aborting on the first unsupported joint. -/
def addJoints : List JointConfig → List (String × ModelFrame) × List (String × String) →
    Except ParseErr (List (String × ModelFrame) × List (String × String))
  | [], acc => Except.ok acc
  | j :: rest, (ts, pm) =>
    match j.ToFrame with
    | Except.error e => Except.error e
    | Except.ok fr => addJoints rest (assocPut ts j.id fr, assocPut pm j.id j.parent)

/-- frame_test.go ParseConfig lines 313-336: the DH branch — each row yields a
rotational joint frame about the z axis named id plus a suffix, and a static
link frame at the DH pose whose parent is that joint frame. -/
def addDHParams : List DHParamConfig → List (String × ModelFrame) × List (String × String) →
    List (String × ModelFrame) × List (String × String)
  | [], acc => acc
  | dh :: rest, (ts, pm) =>
    let jointID := dh.id ++ "_j"
    let ts1 := assocPut ts jointID (ModelFrame.rotational (NewRotationalFrame jointID
      { x := 0, y := 0, z := 1 } { min := DegToRad dh.min, max := DegToRad dh.max }))
    let pm1 := assocPut pm jointID dh.parent
    let ts2 := assocPut ts1 dh.id (ModelFrame.static dh.id (NewPoseFromDH dh.a dh.d dh.alpha))
    let pm2 := assocPut pm1 dh.id jointID
    addDHParams rest (ts2, pm2)

/-- frame_test.go ParseConfig lines 342-351: the candidate end effectors are
the recorded frames that are no recorded frame's parent. -/
def endEffectorsOf (transforms : List (String × ModelFrame))
    (parentMap : List (String × String)) : List String :=
  let parentVals := transforms.map (fun t => (List.lookup t.1 parentMap).getD "")
  (transforms.map (fun t => t.1)).filter (fun id => ! parentVals.contains id)

/-- Modelled from the spec: the walk of `sortTransforms` (not under src) — from
the end effector up the parent map to world; a missing frame or parent, or a
chain longer than the number of frames (a cycle or a subtree not rooted at
world), fails construction. -/
def sortWalk (transforms : List (String × ModelFrame)) (parentMap : List (String × String)) :
    Nat → String → List ModelFrame → Except ParseErr (List ModelFrame)
  | 0, _, _ => Except.error ParseErr.malformedChain
  | fuel + 1, id, acc =>
    match List.lookup id transforms with
    | none => Except.error ParseErr.malformedChain
    | some fr =>
      match List.lookup id parentMap with
      | none => Except.error ParseErr.malformedChain
      | some p =>
        if p == World then Except.ok (fr :: acc)
        else sortWalk transforms parentMap fuel p (fr :: acc)

/-- Modelled from the spec: `sortTransforms` (not under src) — the ordered
transform list from world down to the end effector. -/
def sortTransforms (transforms : List (String × ModelFrame))
    (parentMap : List (String × String)) (ee : String) : Except ParseErr (List ModelFrame) :=
  sortWalk transforms parentMap transforms.length ee []

/-- A parsed kinematic model (`referenceframe.SimpleModel`): only the name and
the ordered transform list matter to the claims. -/
structure Model where
  name : String
  OrdTransforms : List ModelFrame
deriving DecidableEq

/-- frame_test.go lines 259-265: `ModelConfig`. -/
structure ModelConfig where
  name : String
  kinParamType : String
  links : List LinkConfig
  joints : List JointConfig
  dhParams : List DHParamConfig
deriving DecidableEq

/-- frame_test.go lines 281-340: the map-building phase of
`ModelConfig.ParseConfig` — in the SVA (or empty) parameter mode reject the
reserved name world on any link or joint, then build the frame and parent
maps from links and joints (the first unsupported joint aborts); in the DH
mode build them from the DH rows; any other parameter type fails. -/
def ModelConfig.buildTransforms (cfg : ModelConfig) :
    Except ParseErr (List (String × ModelFrame) × List (String × String)) :=
  if cfg.kinParamType == "SVA" ∨ cfg.kinParamType == "" then
    if cfg.links.any (fun l => l.id == World) then Except.error ParseErr.reservedWorldLink
    else if cfg.joints.any (fun j => j.id == World) then Except.error ParseErr.reservedWorldJoint
    else addJoints cfg.joints (addLinks cfg.links ([], []))
  else if cfg.kinParamType == "DH" then
    Except.ok (addDHParams cfg.dhParams ([], []))
  else Except.error (ParseErr.unsupportedParamType cfg.kinParamType)

/-- frame_test.go lines 342-375: after the maps are built, require exactly one
end effector and order the transforms from world to it. -/
def ModelConfig.ParseConfig (cfg : ModelConfig) (modelName : String) : Except ParseErr Model :=
  match cfg.buildTransforms with
  | Except.error e => Except.error e
  | Except.ok (transforms, parentMap) =>
    if (endEffectorsOf transforms parentMap).length > 1 then
      Except.error ParseErr.moreThanOneEndEffector
    else
      match endEffectorsOf transforms parentMap with
      | [] => Except.error ParseErr.needOneEndEffector
      | eename :: _ =>
        match sortTransforms transforms parentMap eename with
        | Except.error e => Except.error e
        | Except.ok ordered =>
          Except.ok { name := if modelName == "" then cfg.name else modelName
                    , OrdTransforms := ordered }

/-- Modelled from the spec: `spatialmath.GeometryConfig` and its parse (not
under src) — parsing either fails or yields a labelled geometry. -/
structure GeometryConfig where
  parseOk : Bool
  label : String
deriving DecidableEq

/-- A parsed geometry: only the label matters to any claim. -/
structure Geometry where
  label : String
deriving DecidableEq

/-- Failures of `FrameConfig` parsing: `ErrNilPose`, the nil-pointer
dereference the source performs when the link is missing (a Go runtime panic,
embedded as a distinguished error), and a failing geometry parse. -/
inductive FrameParseErr where
  | nilPose
  | nilPointerPanic
  | geometryFailed
deriving DecidableEq

/-- Modelled from the spec: parsing one geometry configuration. -/
def GeometryConfig.ParseConfig (g : GeometryConfig) : Except FrameParseErr Geometry :=
  if g.parseOk then Except.ok { label := g.label } else Except.error FrameParseErr.geometryFailed

/-- part_002 lines 18-21: `FrameConfig`. -/
structure FrameConfig where
  link : Option LinkConfig
  geometries : Option (List GeometryConfig)
deriving DecidableEq

/-- part_002 lines 99-114: `FrameConfig.Pose`.  The source reads
`link := cfg.Link; if link != nil { return nil, ErrNilPose }`: a present link
is rejected with the nil-pose error, and a missing link falls through to
`link.Translation`, dereferencing a nil pointer (a runtime panic).  The
translation and orientation handling below the check is unreachable, so this
function fails on every input. -/
def FrameConfig.Pose (cfg : FrameConfig) : Except FrameParseErr Pose :=
  match cfg.link with
  | some _ => Except.error FrameParseErr.nilPose
  | none => Except.error FrameParseErr.nilPointerPanic

/-- `referenceframe.LinkInFrame` as built by `NewLinkInFrame` (not under src):
a named pose in a parent frame with attached geometries. -/
structure LinkInFrame where
  parent : String
  pose : Pose
  name : String
  geometries : List Geometry
deriving DecidableEq

/-- part_002 lines 84-95: parse each geometry, defaulting empty labels to the
link id, aborting on the first failure. -/
def parseGeometries : List GeometryConfig → String → Except FrameParseErr (List Geometry)
  | [], _ => Except.ok []
  | g :: rest, linkID =>
    match g.ParseConfig with
    | Except.error e => Except.error e
    | Except.ok geo =>
      let geo1 := if geo.label == "" then { geo with label := linkID } else geo
      match parseGeometries rest linkID with
      | Except.error e => Except.error e
      | Except.ok gs => Except.ok (geo1 :: gs)

/-- part_002 lines 78-97: `FrameConfig.ParseConfig` parses the pose, then the
geometries, and builds the `LinkInFrame` from the link's parent, pose, id and
geometries.  Because `FrameConfig.Pose` fails on every input, the geometry
loop and the constructor are unreachable. -/
def FrameConfig.ParseConfig (cfg : FrameConfig) : Except FrameParseErr LinkInFrame :=
  match cfg.Pose with
  | Except.error e => Except.error e
  | Except.ok pose =>
    match parseGeometries (cfg.geometries.getD []) ((cfg.link.map (fun l => l.id)).getD "") with
    | Except.error e => Except.error e
    | Except.ok geoms =>
      Except.ok { parent := (cfg.link.map (fun l => l.parent)).getD ""
                , pose := pose
                , name := (cfg.link.map (fun l => l.id)).getD ""
                , geometries := geoms }

/-- move_request.go line 32. -/
def defaultReplanCostFactor : ℚ := 1

/-- move_request.go line 33: the default maximum number of replans; values
below zero replan infinitely. -/
def defaultMaxReplans : Int := -1

/-- move_request.go line 34: the stop timeout, in seconds. -/
def baseStopTimeout : Nat := 5

/-- `motion.MotionConfiguration` as consumed by `newValidatedMotionCfg`
(move_request.go lines 311-371).  NaN is not representable over ℚ, so the
`validateNotNan` half of `validateNotNegNorNaN` cannot fire in this embedding
and only the sign checks remain; a nil Go detector slice is `none`. -/
structure MotionConfiguration where
  linearMPerSec : ℚ
  angularDegsPerSec : ℚ
  planDeviationMM : ℚ
  obstaclePollingFreqHz : ℚ
  positionPollingFreqHz : ℚ
  obstacleDetectors : Option (List String)
deriving DecidableEq

/-- move_request.go lines 40-47: `validatedMotionConfiguration`. -/
structure validatedMotionConfiguration where
  obstacleDetectors : List String
  positionPollingFreqHz : ℚ
  obstaclePollingFreqHz : ℚ
  planDeviationMM : ℚ
  linearMPerSec : ℚ
  angularDegsPerSec : ℚ
deriving DecidableEq

/-- Modelled from the spec: the default linear speed (a constant outside src;
no claim depends on its value). -/
def defaultLinearMPerSec : ℚ := 3 / 10

/-- Modelled from the spec: the default angular speed (outside src). -/
def defaultAngularDegsPerSec : ℚ := 60

/-- Modelled from the spec: the default obstacle polling frequency (outside src). -/
def defaultObstaclePollingHz : ℚ := 1

/-- Modelled from the spec: the default position polling frequency (outside src). -/
def defaultPositionPollingHz : ℚ := 1

/-- Modelled from the spec: the default plan deviation, in meters (outside src). -/
def defaultPlanDeviationM : ℚ := 1

/-- The failures of move-request creation covered by the embedding
(move_request.go lines 290-309, 373-405 and 493-517). -/
inductive MoveReqErr where
  | exceededReplans (maxReplans : Int)
  | negativeField (name : String)
  | nilDestination
deriving DecidableEq

/-- move_request.go lines 297-302: `validateNotNeg`. -/
def validateNotNeg (f : ℚ) (name : String) : Except MoveReqErr Unit :=
  if f < 0 then Except.error (MoveReqErr.negativeField name) else Except.ok ()

/-- move_request.go lines 311-371: `newValidatedMotionCfg` — defaults, then
sign validation of every field, then overriding each default by any non-zero
configured value. -/
def newValidatedMotionCfg (motionCfg : Option MotionConfiguration) :
    Except MoveReqErr validatedMotionConfiguration :=
  let vmc : validatedMotionConfiguration :=
    { angularDegsPerSec := defaultAngularDegsPerSec
    , linearMPerSec := defaultLinearMPerSec
    , obstaclePollingFreqHz := defaultObstaclePollingHz
    , positionPollingFreqHz := defaultPositionPollingHz
    , planDeviationMM := defaultPlanDeviationM * 1000
    , obstacleDetectors := [] }
  match motionCfg with
  | none => Except.ok vmc
  | some cfg =>
    match validateNotNeg cfg.linearMPerSec "LinearMPerSec" with
    | Except.error e => Except.error e
    | Except.ok _ =>
    match validateNotNeg cfg.angularDegsPerSec "AngularDegsPerSec" with
    | Except.error e => Except.error e
    | Except.ok _ =>
    match validateNotNeg cfg.planDeviationMM "PlanDeviationMM" with
    | Except.error e => Except.error e
    | Except.ok _ =>
    match validateNotNeg cfg.obstaclePollingFreqHz "ObstaclePollingFreqHz" with
    | Except.error e => Except.error e
    | Except.ok _ =>
    match validateNotNeg cfg.positionPollingFreqHz "PositionPollingFreqHz" with
    | Except.error e => Except.error e
    | Except.ok _ =>
      Except.ok
        { linearMPerSec :=
            if cfg.linearMPerSec ≠ 0 then cfg.linearMPerSec else vmc.linearMPerSec
        , angularDegsPerSec :=
            if cfg.angularDegsPerSec ≠ 0 then cfg.angularDegsPerSec else vmc.angularDegsPerSec
        , planDeviationMM :=
            if cfg.planDeviationMM ≠ 0 then cfg.planDeviationMM else vmc.planDeviationMM
        , obstaclePollingFreqHz :=
            if cfg.obstaclePollingFreqHz ≠ 0 then cfg.obstaclePollingFreqHz
            else vmc.obstaclePollingFreqHz
        , positionPollingFreqHz :=
            if cfg.positionPollingFreqHz ≠ 0 then cfg.positionPollingFreqHz
            else vmc.positionPollingFreqHz
        , obstacleDetectors := cfg.obstacleDetectors.getD vmc.obstacleDetectors }

/-- move_request.go lines 384-388 and 504-508: the replan-budget gate — with a
non-negative configured maximum, a replan count beyond it fails with the
exceeded-maximum-of-replans error; the two nested ifs of the source are
flattened to their conjunction. -/
def replanGate (maxReplans replanCount : Int) : Except MoveReqErr Unit :=
  if 0 ≤ maxReplans ∧ maxReplans < replanCount then
    Except.error (MoveReqErr.exceededReplans maxReplans)
  else Except.ok ()

/-- The arguments of `newMoveOnGlobeRequest` its embedded validation prefix
reads: the already-validated extras (`newValidatedExtra` is not under src; it
defaults maxReplans to `defaultMaxReplans`), the motion configuration, and the
destination, where `none` embeds a nil destination. -/
structure MoveOnGlobeReq where
  maxReplans : Int
  motionCfg : Option MotionConfiguration
  destination : Option (ℚ × ℚ)
deriving DecidableEq

/-- move_request.go lines 373-405: the validation prefix of
`newMoveOnGlobeRequest` in source order — replan gate, motion-configuration
validation, nil destination (the destination NaN check cannot fire over ℚ).
The remainder of the constructor consults live collaborators (sensors,
components, frame system) and produces none of the errors the claims are
about, so a prefix that passes is embedded as success. -/
def newMoveOnGlobeRequestValidate (req : MoveOnGlobeReq) (replanCount : Int) :
    Except MoveReqErr validatedMotionConfiguration :=
  match replanGate req.maxReplans replanCount with
  | Except.error e => Except.error e
  | Except.ok _ =>
    match newValidatedMotionCfg req.motionCfg with
    | Except.error e => Except.error e
    | Except.ok vmc =>
      match req.destination with
      | none => Except.error MoveReqErr.nilDestination
      | some _ => Except.ok vmc

/-- The arguments of `newMoveOnMapRequest` its embedded validation prefix
reads. -/
structure MoveOnMapReq where
  maxReplans : Int
  motionCfg : Option MotionConfiguration
  destination : Option Pose
deriving DecidableEq

/-- move_request.go lines 493-517: the validation prefix of
`newMoveOnMapRequest` in source order — replan gate, motion-configuration
validation, nil destination. -/
def newMoveOnMapRequestValidate (req : MoveOnMapReq) (replanCount : Int) :
    Except MoveReqErr validatedMotionConfiguration :=
  match replanGate req.maxReplans replanCount with
  | Except.error e => Except.error e
  | Except.ok _ =>
    match newValidatedMotionCfg req.motionCfg with
    | Except.error e => Except.error e
    | Except.ok vmc =>
      match req.destination with
      | none => Except.error MoveReqErr.nilDestination
      | some _ => Except.ok vmc

/-- `state.ExecuteResponse`. -/
structure ExecuteResponse where
  replan : Bool
  replanReason : String
deriving DecidableEq

/-- The zero ExecuteResponse (`state.ExecuteResponse{}`). -/
def ExecuteResponse.empty : ExecuteResponse := ⟨false, ""⟩

/-- A Go context identified by its derivation: the background context, the
incoming request context, and cancellable or timeout-scoped children.  What
matters to the claims is only the shape: the stop context must be a fresh
timeout context over Background, independent of the (possibly cancelled)
request context. -/
inductive GoCtx where
  | background
  | request
  | withCancel (parent : GoCtx)
  | withTimeout (parent : GoCtx) (seconds : Nat)
deriving DecidableEq

/-- move_request.go line 765: the context `stop` hands to the hardware stop,
`context.WithTimeout(context.Background(), baseStopTimeout)` — derived from
Background, not from the request context, and bounded by the fixed timeout. -/
def stopContextUsed : GoCtx := GoCtx.withTimeout GoCtx.background baseStopTimeout

/-- The actuator collaborator as `execute` uses it: the result of `GoToInputs`
per waypoint index (`none` is success) and the result of `Stop` as a function
of the context it is given. -/
structure KinematicBase where
  goToInputs : Nat → Option String
  stopResult : GoCtx → Option String

/-- move_request.go lines 764-772: `moveRequest.stop` issues the hardware stop
on the fresh timeout context and returns its error, if any. -/
def moveRequest.stop (kb : KinematicBase) : Option String :=
  kb.stopResult stopContextUsed

/-- `errors.Wrap(err, message)` produces "message: err"; both messages survive
verbatim in the combined error. -/
def wrapErr (err msg : String) : String := msg ++ ": " ++ err

/-- The inputs `deviatedFromPlan` reads: the error state reported by the
kinematic base per waypoint (or the query failure) and the configured
deviation threshold. -/
structure DeviationEnv where
  errorStateAt : Nat → Except String Vec3
  planDeviationMM : ℚ

/-- move_request.go lines 139-150: `deviatedFromPlan` reads the error state at
a waypoint index and reports a replan exactly when its norm exceeds
`planDeviationMM` (compared here on squares, equivalent for the non-negative
quantities involved).  It consumes the index by value: it reads and never
writes it. -/
def moveRequest.deviatedFromPlan (dev : DeviationEnv) (waypointIndex : Nat) :
    ExecuteResponse × Option String :=
  match dev.errorStateAt waypointIndex with
  | Except.error e => (ExecuteResponse.empty, some e)
  | Except.ok p =>
    if p.normSq > dev.planDeviationMM * dev.planDeviationMM then
      ({ replan := true, replanReason := "error state exceeds planDeviationMM" }, none)
    else (ExecuteResponse.empty, none)

/-- The environment of one `execute` run: whether the request context is
observed cancelled at a given loop iteration, and the context error reported
then. -/
structure ExecEnv where
  cancelledAt : Nat → Bool
  ctxErr : String

/-- The observable outcome of one `execute` run: the returned response and
error, every context passed to `Stop`, every value written to the shared
waypoint index, and every waypoint whose command completed successfully. -/
structure ExecRecord where
  response : ExecuteResponse
  err : Option String
  stopCalls : List GoCtx
  writes : List Nat
  completed : List Nat
deriving DecidableEq

/-- move_request.go lines 110-134: the waypoint loop of `execute`, with `fuel`
the remaining iterations (`len - i`), `i` the loop variable and `idx` the
current value of the shared waypoint index.  Each iteration first selects on
cancellation, then issues the waypoint command; on either failure it calls
`stop` and combines the errors when the stop also fails; after a successful
command it writes `idx + 1` into the index only when the waypoint was not the
final one.  When the loop finishes, the final deviation check runs on the last
waypoint. -/
def executeAux (env : ExecEnv) (kb : KinematicBase) (dev : DeviationEnv) (len : Nat) :
    Nat → Nat → Nat → ExecRecord
  | 0, _, _ =>
    let r := moveRequest.deviatedFromPlan dev (len - 1)
    { response := r.1, err := r.2, stopCalls := [], writes := [], completed := [] }
  | fuel + 1, i, idx =>
    if env.cancelledAt i then
      match moveRequest.stop kb with
      | some stopE =>
        { response := ExecuteResponse.empty, err := some (wrapErr env.ctxErr stopE)
        , stopCalls := [stopContextUsed], writes := [], completed := [] }
      | none =>
        { response := ExecuteResponse.empty, err := none
        , stopCalls := [stopContextUsed], writes := [], completed := [] }
    else
      match kb.goToInputs i with
      | some e =>
        match moveRequest.stop kb with
        | some stopE =>
          { response := ExecuteResponse.empty, err := some (wrapErr e stopE)
          , stopCalls := [stopContextUsed], writes := [], completed := [] }
        | none =>
          { response := ExecuteResponse.empty, err := some e
          , stopCalls := [stopContextUsed], writes := [], completed := [] }
      | none =>
        let rest := executeAux env kb dev len fuel (i + 1) (if i < len - 1 then idx + 1 else idx)
        { response := rest.response, err := rest.err, stopCalls := rest.stopCalls
        , writes := (if i < len - 1 then [idx + 1] else []) ++ rest.writes
        , completed := i :: rest.completed }

/-- move_request.go lines 101-135: `execute` runs the waypoint loop from the
index loaded from the shared waypoint index. -/
def moveRequest.execute (env : ExecEnv) (kb : KinematicBase) (dev : DeviationEnv)
    (waypointsLen startIdx : Nat) : ExecRecord :=
  executeAux env kb dev waypointsLen (waypointsLen - startIdx) startIdx startIdx

/-- move_request.go lines 657-658: the shared waypoint index is created
storing 1. -/
def waypointIndexInitial : Nat := 1

/-- Modelled from the spec: one poll of a `replanner` (`newReplanner` and
`startPolling` are not under src; their construction and launch are
move_request.go lines 698-699 and 712-724) — a poller invokes its poll
function with the current value of the shared waypoint index; it is a pure
reader of the index and returns only a response, never an updated index. -/
def replannerPollOnce (pollFn : Nat → ExecuteResponse × Option String)
    (waypointIndex : Nat) : ExecuteResponse × Option String :=
  pollFn waypointIndex

/-- Whether the interpolated state at step `i` of `steps` resolves to a pose
(part_005 line 152). -/
def stateResolvesAt (f : Option Frame) (startConf endConf : Option (List ℚ))
    (steps i : Nat) : Bool :=
  match (stateInputAt f startConf endConf steps i).resolveInputsToPositions with
  | Except.ok _ => true
  | Except.error _ => false

/-- Whether the interpolated state at step `i` of `steps` resolves and passes
every state constraint of the handler (part_005 lines 152-156). -/
def ConstraintHandler.stateOkAt (c : ConstraintHandler) (f : Option Frame)
    (startConf endConf : Option (List ℚ)) (steps i : Nat) : Bool :=
  match (stateInputAt f startConf endConf steps i).resolveInputsToPositions with
  | Except.ok st => (c.CheckStateConstraints st).1
  | Except.error _ => false

/-- The sub-segment reported on a state failure at step `k`: the original
start configuration paired with the configuration of the preceding step. -/
def subSegmentAt (startConf endConf : Option (List ℚ)) (f : Option Frame)
    (steps k : Nat) : SegmentInput :=
  { StartPosition := none, EndPosition := none
  , StartConfiguration := startConf
  , EndConfiguration := (stateInputAt f startConf endConf steps (k - 1)).Configuration
  , frame := none }

theorem stateOkAt_of_resolve_ok (c : ConstraintHandler) {f : Option Frame}
    {s e : Option (List ℚ)} {steps i : Nat} {st : StateInput}
    (hres : (stateInputAt f s e steps i).resolveInputsToPositions = Except.ok st) :
    c.stateOkAt f s e steps i = (c.CheckStateConstraints st).1 := by
  unfold ConstraintHandler.stateOkAt
  rw [hres]

theorem stateOkAt_of_resolve_err (c : ConstraintHandler) {f : Option Frame}
    {s e : Option (List ℚ)} {steps i : Nat} {err : ResolveError}
    (hres : (stateInputAt f s e steps i).resolveInputsToPositions = Except.error err) :
    c.stateOkAt f s e steps i = false := by
  unfold ConstraintHandler.stateOkAt
  rw [hres]

theorem stateResolvesAt_of_resolve_err {f : Option Frame}
    {s e : Option (List ℚ)} {steps i : Nat} {err : ResolveError}
    (hres : (stateInputAt f s e steps i).resolveInputsToPositions = Except.error err) :
    stateResolvesAt f s e steps i = false := by
  unfold stateResolvesAt
  rw [hres]

theorem checkAcrossAux_step_ok (c : ConstraintHandler) (f : Option Frame)
    (s e : Option (List ℚ)) (steps fuel i : Nat) (lastGood : Option (List ℚ))
    (st : StateInput)
    (hres : (stateInputAt f s e steps i).resolveInputsToPositions = Except.ok st) :
    c.checkAcrossAux f s e steps (fuel + 1) i lastGood =
      (if (c.CheckStateConstraints st).1 = false then
        if i = 0 then (false, none)
        else (false, some { StartPosition := none, EndPosition := none,
                            StartConfiguration := s, EndConfiguration := lastGood,
                            frame := none })
      else c.checkAcrossAux f s e steps fuel (i + 1)
        (stateInputAt f s e steps i).Configuration) := by
  conv_lhs => unfold ConstraintHandler.checkAcrossAux
  rw [hres]

theorem checkAcrossAux_step_err (c : ConstraintHandler) (f : Option Frame)
    (s e : Option (List ℚ)) (steps fuel i : Nat) (lastGood : Option (List ℚ))
    (err : ResolveError)
    (hres : (stateInputAt f s e steps i).resolveInputsToPositions = Except.error err) :
    c.checkAcrossAux f s e steps (fuel + 1) i lastGood = (false, none) := by
  conv_lhs => unfold ConstraintHandler.checkAcrossAux
  rw [hres]

theorem checkAcrossAux_all_ok (c : ConstraintHandler) (f : Option Frame)
    (s e : Option (List ℚ)) (steps : Nat) :
    ∀ fuel i lastGood, (∀ j, i ≤ j → j < i + fuel → c.stateOkAt f s e steps j = true) →
      c.checkAcrossAux f s e steps fuel i lastGood = (true, none) := by
  intro fuel
  induction fuel with
  | zero => intro i lastGood _; rfl
  | succ n ih =>
    intro i lastGood h
    have hok := h i (Nat.le_refl i) (by omega)
    cases hres : (stateInputAt f s e steps i).resolveInputsToPositions with
    | error err => rw [stateOkAt_of_resolve_err c hres] at hok; cases hok
    | ok st =>
      rw [stateOkAt_of_resolve_ok c hres] at hok
      rw [checkAcrossAux_step_ok c f s e steps n i lastGood st hres, hok,
        if_neg (by simp)]
      exact ih (i + 1) _ (fun j h1 h2 => h j (by omega) (by omega))

theorem checkAcrossAux_first_fail (c : ConstraintHandler) (f : Option Frame)
    (s e : Option (List ℚ)) (steps k : Nat)
    (hresk : stateResolvesAt f s e steps k = true)
    (hfailk : c.stateOkAt f s e steps k = false) :
    ∀ fuel i lastGood, i ≤ k → k < i + fuel →
      (∀ j, i ≤ j → j < k → c.stateOkAt f s e steps j = true) →
      lastGood = (if i = 0 then none else (stateInputAt f s e steps (i - 1)).Configuration) →
      c.checkAcrossAux f s e steps fuel i lastGood =
        (if k = 0 then (false, none) else (false, some (subSegmentAt s e f steps k))) := by
  intro fuel
  induction fuel with
  | zero => intro i lastGood h1 h2 _ _; omega
  | succ n ih =>
    intro i lastGood hik hkfuel hall hlg
    by_cases hieq : i = k
    · subst hieq
      cases hres : (stateInputAt f s e steps i).resolveInputsToPositions with
      | error err => rw [stateResolvesAt_of_resolve_err hres] at hresk; cases hresk
      | ok st =>
        have hfail : (c.CheckStateConstraints st).1 = false := by
          rw [stateOkAt_of_resolve_ok c hres] at hfailk; exact hfailk
        rw [checkAcrossAux_step_ok c f s e steps n i lastGood st hres, hfail, if_pos rfl]
        by_cases hi0 : i = 0
        · subst hi0; rw [if_pos rfl, if_pos rfl]
        · rw [if_neg hi0, if_neg hi0, hlg, if_neg hi0]
          rfl
    · have hik2 : i < k := by omega
      have hoki := hall i (Nat.le_refl i) hik2
      cases hres : (stateInputAt f s e steps i).resolveInputsToPositions with
      | error err => rw [stateOkAt_of_resolve_err c hres] at hoki; cases hoki
      | ok st =>
        rw [stateOkAt_of_resolve_ok c hres] at hoki
        rw [checkAcrossAux_step_ok c f s e steps n i lastGood st hres, hoki,
          if_neg (by simp)]
        exact ih (i + 1) _ (by omega) (by omega)
          (fun j h1 h2 => hall j (by omega) h2) (by simp)

theorem SegmentInput.resolveStart_preserves {ci cir : SegmentInput}
    (h : ci.resolveStart = Except.ok cir) :
    cir.StartConfiguration = ci.StartConfiguration ∧
      cir.EndConfiguration = ci.EndConfiguration ∧
      cir.frame = ci.frame ∧ cir.EndPosition = ci.EndPosition := by
  unfold SegmentInput.resolveStart at h
  split at h
  · injection h with h2
    subst h2
    exact ⟨rfl, rfl, rfl, rfl⟩
  · split at h
    · simp at h
    · split at h
      · simp at h
      · split at h
        · injection h with h2
          subst h2
          exact ⟨rfl, rfl, rfl, rfl⟩
        · simp at h

theorem SegmentInput.resolveEnd_preserves {ci cir : SegmentInput}
    (h : ci.resolveEnd = Except.ok cir) :
    cir.StartConfiguration = ci.StartConfiguration ∧
      cir.EndConfiguration = ci.EndConfiguration ∧
      cir.frame = ci.frame ∧ cir.StartPosition = ci.StartPosition := by
  unfold SegmentInput.resolveEnd at h
  split at h
  · injection h with h2
    subst h2
    exact ⟨rfl, rfl, rfl, rfl⟩
  · split at h
    · simp at h
    · split at h
      · simp at h
      · split at h
        · injection h with h2
          subst h2
          exact ⟨rfl, rfl, rfl, rfl⟩
        · simp at h

theorem SegmentInput.resolve_preserves {ci cir : SegmentInput}
    (h : ci.resolveInputsToPositions = Except.ok cir) :
    cir.StartConfiguration = ci.StartConfiguration ∧
      cir.EndConfiguration = ci.EndConfiguration ∧
      cir.frame = ci.frame := by
  unfold SegmentInput.resolveInputsToPositions at h
  split at h
  · simp at h
  next ci1 hstart =>
    have p1 := SegmentInput.resolveStart_preserves hstart
    have p2 := SegmentInput.resolveEnd_preserves h
    exact ⟨p2.1.trans p1.1, p2.2.1.trans p1.2.1, p2.2.2.1.trans p1.2.2.1⟩

theorem stateInputAt_config_of_resolves {f : Option Frame} {s e : Option (List ℚ)}
    {steps i : Nat} (h : stateResolvesAt f s e steps i = true) :
    (stateInputAt f s e steps i).Configuration = some (interpConfigAt s e steps i) := by
  cases hc : interpConfigAt s e steps i with
  | nil =>
    exfalso
    unfold stateResolvesAt StateInput.resolveInputsToPositions stateInputAt at h
    rw [hc] at h
    cases f with
    | none => simp at h
    | some fr => simp at h
  | cons a l =>
    unfold stateInputAt
    rw [hc]

theorem stateResolvesAt_of_stateOkAt {c : ConstraintHandler} {f : Option Frame}
    {s e : Option (List ℚ)} {steps i : Nat}
    (h : c.stateOkAt f s e steps i = true) : stateResolvesAt f s e steps i = true := by
  unfold ConstraintHandler.stateOkAt at h
  unfold stateResolvesAt
  cases hres : (stateInputAt f s e steps i).resolveInputsToPositions with
  | ok st => rfl
  | error err => rw [hres] at h; simp at h

theorem checkAcross_of_resolve_ok (c : ConstraintHandler) {ci cir : SegmentInput}
    (resolution : ℚ) (hres : ci.resolveInputsToPositions = Except.ok cir) :
    c.CheckStateConstraintsAcrossSegment ci resolution =
      c.checkAcrossAux cir.frame cir.StartConfiguration cir.EndConfiguration
        (cir.stepsOf resolution) (cir.stepsOf resolution + 1) 0 none := by
  unfold ConstraintHandler.CheckStateConstraintsAcrossSegment
  rw [hres]

/-- The interpolated configuration checked at step `i` for a resolved segment. -/
abbrev SegmentInput.interpAt (cir : SegmentInput) (resolution : ℚ) (i : Nat) : List ℚ :=
  interpConfigAt cir.StartConfiguration cir.EndConfiguration (cir.stepsOf resolution) i

/-- Whether the interpolated state at step `i` of a resolved segment resolves. -/
abbrev SegmentInput.resolvesAt (cir : SegmentInput) (resolution : ℚ) (i : Nat) : Bool :=
  stateResolvesAt cir.frame cir.StartConfiguration cir.EndConfiguration
    (cir.stepsOf resolution) i

/-- Whether the interpolated state at step `i` of a resolved segment resolves
and passes every state constraint. -/
abbrev ConstraintHandler.okAt (c : ConstraintHandler) (cir : SegmentInput)
    (resolution : ℚ) (i : Nat) : Bool :=
  c.stateOkAt cir.frame cir.StartConfiguration cir.EndConfiguration
    (cir.stepsOf resolution) i

/-- Claim C1: for a segment whose start and end configurations resolve to
poses, `CheckStateConstraintsAcrossSegment` returns `(true, nil)` when every
interpolated state from start to end inclusive resolves and satisfies all
state constraints; when the first failing interpolated state is an
intermediate one (index `k > 0`), it returns `false` together with a
sub-segment whose start is the original start configuration and whose end
configuration is the last valid interpolated step before the violation; and
when the start state itself fails it returns `(false, nil)`. -/
theorem checkStateConstraintsAcrossSegment_longest_valid_portion (c : ConstraintHandler) (ci cir : SegmentInput) (resolution : ℚ)
    (hres : ci.resolveInputsToPositions = Except.ok cir) :
    ((∀ i, i ≤ cir.stepsOf resolution → c.okAt cir resolution i = true) →
      c.CheckStateConstraintsAcrossSegment ci resolution = (true, none)) ∧
    (∀ k, 0 < k → k ≤ cir.stepsOf resolution →
      cir.resolvesAt resolution k = true → c.okAt cir resolution k = false →
      (∀ j, j < k → c.okAt cir resolution j = true) →
      c.CheckStateConstraintsAcrossSegment ci resolution =
        (false, some { StartPosition := none, EndPosition := none,
                       StartConfiguration := ci.StartConfiguration,
                       EndConfiguration := some (cir.interpAt resolution (k - 1)),
                       frame := none })) ∧
    (cir.resolvesAt resolution 0 = true → c.okAt cir resolution 0 = false →
      c.CheckStateConstraintsAcrossSegment ci resolution = (false, none)) := by
  obtain ⟨ps, pe, pf⟩ := SegmentInput.resolve_preserves hres
  refine ⟨?_, ?_, ?_⟩
  · intro hall
    rw [checkAcross_of_resolve_ok c resolution hres]
    exact checkAcrossAux_all_ok c _ _ _ _ _ 0 none (fun j h1 h2 => hall j (by omega))
  · intro k hk0 hksteps hresk hfailk hprev
    rw [checkAcross_of_resolve_ok c resolution hres]
    have hrun := checkAcrossAux_first_fail c cir.frame cir.StartConfiguration
      cir.EndConfiguration (cir.stepsOf resolution) k hresk hfailk
      (cir.stepsOf resolution + 1) 0 none (by omega) (by omega)
      (fun j _ h2 => hprev j h2) (by simp)
    rw [hrun, if_neg (by omega)]
    have hcfg : (stateInputAt cir.frame cir.StartConfiguration cir.EndConfiguration
        (cir.stepsOf resolution) (k - 1)).Configuration =
        some (cir.interpAt resolution (k - 1)) :=
      stateInputAt_config_of_resolves
        (stateResolvesAt_of_stateOkAt (hprev (k - 1) (by omega)))
    unfold subSegmentAt
    rw [hcfg, ps]
  · intro hres0 hfail0
    rw [checkAcross_of_resolve_ok c resolution hres]
    have hrun := checkAcrossAux_first_fail c cir.frame cir.StartConfiguration
      cir.EndConfiguration (cir.stepsOf resolution) 0 hres0 hfail0
      (cir.stepsOf resolution + 1) 0 none (by omega) (by omega)
      (fun j _ h2 => absurd h2 (Nat.not_lt_zero j)) (by simp)
    rw [hrun, if_pos rfl]

def c1Frame : Frame :=
  { name := "line"
  , transform := fun inputs =>
      match inputs with
      | [v] => Except.ok { pt := { x := v, y := 0, z := 0 }, orient := Orient.zero }
      | _ => Except.error (FrameError.wrongLength inputs.length 1) }

def c1Handler : ConstraintHandler :=
  { segmentConstraints := []
  , stateConstraints := [("below_one", fun st =>
      match st.Position with
      | some p => decide (p.pt.x < 1)
      | none => false)] }

def c1Seg : SegmentInput :=
  { StartPosition := none, EndPosition := none
  , StartConfiguration := some [0], EndConfiguration := some [2]
  , frame := some c1Frame }

def c1SegResolved : SegmentInput :=
  { StartPosition := some { pt := { x := 0, y := 0, z := 0 }, orient := Orient.zero }
  , EndPosition := some { pt := { x := 2, y := 0, z := 0 }, orient := Orient.zero }
  , StartConfiguration := some [0], EndConfiguration := some [2]
  , frame := some c1Frame }

theorem checkStateConstraintsAcrossSegment_longest_valid_portion_witness :
    c1Handler.CheckStateConstraintsAcrossSegment c1Seg 1 =
      (false, some { StartPosition := none, EndPosition := none,
                     StartConfiguration := some [0],
                     EndConfiguration := some [2/3], frame := none }) := by
  have h := (checkStateConstraintsAcrossSegment_longest_valid_portion c1Handler c1Seg c1SegResolved 1 (by with_unfolding_all rfl)).2.1 2
    (by decide) (by with_unfolding_all decide) (by with_unfolding_all decide)
    (by with_unfolding_all decide) (by with_unfolding_all decide)
  exact h.trans (by with_unfolding_all rfl)

theorem checkAcrossAux_true_implies (c : ConstraintHandler) (f : Option Frame)
    (s e : Option (List ℚ)) (steps : Nat) :
    ∀ fuel i lastGood, (c.checkAcrossAux f s e steps fuel i lastGood).1 = true →
      ∀ j, i ≤ j → j < i + fuel → c.stateOkAt f s e steps j = true := by
  intro fuel
  induction fuel with
  | zero => intro i lastGood _ j h1 h2; omega
  | succ n ih =>
    intro i lastGood h j h1 h2
    cases hres : (stateInputAt f s e steps i).resolveInputsToPositions with
    | error err =>
      rw [checkAcrossAux_step_err c f s e steps n i lastGood err hres] at h
      simp at h
    | ok st =>
      rw [checkAcrossAux_step_ok c f s e steps n i lastGood st hres] at h
      by_cases hchk : (c.CheckStateConstraints st).1 = false
      · rw [if_pos hchk] at h
        by_cases hi0 : i = 0
        · rw [if_pos hi0] at h; simp at h
        · rw [if_neg hi0] at h; simp at h
      · rw [if_neg hchk] at h
        by_cases hij : j = i
        · subst hij
          rw [stateOkAt_of_resolve_ok c hres]
          cases hb : (c.CheckStateConstraints st).1 with
          | false => exact absurd hb hchk
          | true => rfl
        · exact ih (i + 1) _ h j (by omega) (by omega)

theorem checkAcrossAux_true_none (c : ConstraintHandler) (f : Option Frame)
    (s e : Option (List ℚ)) (steps : Nat) :
    ∀ fuel i lastGood, (c.checkAcrossAux f s e steps fuel i lastGood).1 = true →
      c.checkAcrossAux f s e steps fuel i lastGood = (true, none) := by
  intro fuel
  induction fuel with
  | zero => intro i lastGood _; rfl
  | succ n ih =>
    intro i lastGood h
    cases hres : (stateInputAt f s e steps i).resolveInputsToPositions with
    | error err =>
      rw [checkAcrossAux_step_err c f s e steps n i lastGood err hres] at h
      simp at h
    | ok st =>
      rw [checkAcrossAux_step_ok c f s e steps n i lastGood st hres] at h ⊢
      by_cases hchk : (c.CheckStateConstraints st).1 = false
      · rw [if_pos hchk] at h
        by_cases hi0 : i = 0
        · rw [if_pos hi0] at h; simp at h
        · rw [if_neg hi0] at h; simp at h
      · rw [if_neg hchk] at h ⊢
        exact ih (i + 1) _ h

theorem CheckSegmentConstraints_true_iff (c : ConstraintHandler) (ci : SegmentInput) :
    (c.CheckSegmentConstraints ci).1 = true ↔
      ∀ nc ∈ c.segmentConstraints, nc.2 ci = true := by
  unfold ConstraintHandler.CheckSegmentConstraints
  cases hf : c.segmentConstraints.find? (fun nc => ! nc.2 ci) with
  | some nc =>
    have hp : nc.2 ci = false := by simpa using List.find?_some hf
    have hmem := List.mem_of_find?_eq_some hf
    constructor
    · intro h; simp at h
    · intro hall; rw [hall nc hmem] at hp; simp at hp
  | none =>
    constructor
    · intro _ nc hmem
      have := List.find?_eq_none.mp hf nc hmem
      simpa using this
    · intro _; rfl

theorem validity_cases (c : ConstraintHandler) (ci : SegmentInput) (resolution : ℚ) :
    c.CheckSegmentAndStateValidity ci resolution =
      (if (c.CheckSegmentConstraints ci).1 = false then (false, none)
       else if (c.CheckStateConstraintsAcrossSegment ci resolution).1 = false then
         (match (c.CheckStateConstraintsAcrossSegment ci resolution).2 with
          | some sub =>
            if (c.CheckSegmentConstraints sub).1 then (false, some sub) else (false, none)
          | none => (false, none))
       else (true, none)) := by
  unfold ConstraintHandler.CheckSegmentAndStateValidity
  cases hac : c.CheckStateConstraintsAcrossSegment ci resolution with
  | mk valid sub => rfl

/-- Claim C2: for a segment whose endpoints resolve to poses,
`CheckSegmentAndStateValidity` returns `(true, nil)` if and only if the
segment passes every registered segment constraint and every interpolated
state across the segment at the given resolution resolves and passes every
registered state constraint; and when the state check across the segment
fails with a longest-valid-prefix sub-segment while the original segment
passes the segment constraints, it returns `false` together with that
sub-segment exactly when the sub-segment itself passes all segment
constraints, and `(false, nil)` otherwise. -/
theorem checkSegmentAndStateValidity_characterization (c : ConstraintHandler) (ci cir : SegmentInput) (resolution : ℚ)
    (hres : ci.resolveInputsToPositions = Except.ok cir) :
    (c.CheckSegmentAndStateValidity ci resolution = (true, none) ↔
      ((∀ nc ∈ c.segmentConstraints, nc.2 ci = true) ∧
        ∀ i, i ≤ cir.stepsOf resolution → c.okAt cir resolution i = true)) ∧
    (∀ sub, c.CheckStateConstraintsAcrossSegment ci resolution = (false, some sub) →
      (c.CheckSegmentConstraints ci).1 = true →
      c.CheckSegmentAndStateValidity ci resolution =
        (false, if (c.CheckSegmentConstraints sub).1 = true then some sub else none)) := by
  constructor
  · constructor
    · intro h
      rw [validity_cases] at h
      by_cases hseg : (c.CheckSegmentConstraints ci).1 = false
      · rw [if_pos hseg] at h; simp at h
      · have hsegT : (c.CheckSegmentConstraints ci).1 = true := by
          cases hb : (c.CheckSegmentConstraints ci).1
          · exact absurd hb hseg
          · rfl
        rw [if_neg hseg] at h
        refine ⟨(CheckSegmentConstraints_true_iff c ci).mp hsegT, ?_⟩
        by_cases hac : (c.CheckStateConstraintsAcrossSegment ci resolution).1 = false
        · exfalso
          rw [if_pos hac] at h
          split at h
          · split at h <;> simp at h
          · simp at h
        · have hacT : (c.CheckStateConstraintsAcrossSegment ci resolution).1 = true := by
            cases hb : (c.CheckStateConstraintsAcrossSegment ci resolution).1
            · exact absurd hb hac
            · rfl
          rw [checkAcross_of_resolve_ok c resolution hres] at hacT
          intro i hi
          exact checkAcrossAux_true_implies c _ _ _ _ _ 0 none hacT i (by omega) (by omega)
    · rintro ⟨hallseg, hallstates⟩
      have hsegT := (CheckSegmentConstraints_true_iff c ci).mpr hallseg
      have hacrossEq : c.CheckStateConstraintsAcrossSegment ci resolution = (true, none) := by
        rw [checkAcross_of_resolve_ok c resolution hres]
        exact checkAcrossAux_all_ok c _ _ _ _ _ 0 none
          (fun j h1 h2 => hallstates j (by omega))
      rw [validity_cases, hacrossEq, hsegT]
      simp
  · intro sub hacrossEq hsegT
    rw [validity_cases, hacrossEq, hsegT]
    simp only [Bool.true_eq_false, if_false, ite_false]
    by_cases hs : (c.CheckSegmentConstraints sub).1 = true
    · simp [hs]
    · simp [hs]

/-- Modelled from the spec: straight-line Cartesian interpolation between two
poses — the position moves along the straight segment between the endpoint
positions (the orientation is interpolated componentwise, which is exact for
equal endpoint orientations, the only case a claim evaluates). -/
def cartesianLerp (a b : Pose) (t : ℚ) : Pose :=
  { pt := { x := a.pt.x + (b.pt.x - a.pt.x) * t
          , y := a.pt.y + (b.pt.y - a.pt.y) * t
          , z := a.pt.z + (b.pt.z - a.pt.z) * t }
  , orient := { ax := { x := a.orient.ax.x + (b.orient.ax.x - a.orient.ax.x) * t
                      , y := a.orient.ax.y + (b.orient.ax.y - a.orient.ax.y) * t
                      , z := a.orient.ax.z + (b.orient.ax.z - a.orient.ax.z) * t }
              , theta := a.orient.theta + (b.orient.theta - a.orient.theta) * t } }

def c3Frame : Frame :=
  { name := "parabola"
  , transform := fun inputs =>
      match inputs with
      | [v] => Except.ok { pt := { x := v, y := v * v, z := 0 }, orient := Orient.zero }
      | _ => Except.error (FrameError.wrongLength inputs.length 1) }

def chordMidPose : Pose := { pt := { x := 0, y := 1, z := 0 }, orient := Orient.zero }

def c3Handler : ConstraintHandler :=
  { segmentConstraints := []
  , stateConstraints := [("avoid_chord_mid", fun st => st.Position != some chordMidPose)] }

def c3Seg : SegmentInput :=
  { StartPosition := none, EndPosition := none
  , StartConfiguration := some [-1], EndConfiguration := some [1]
  , frame := some c3Frame }

def c3StartPose : Pose := { pt := { x := -1, y := 1, z := 0 }, orient := Orient.zero }

def c3EndPose : Pose := { pt := { x := 1, y := 1, z := 0 }, orient := Orient.zero }

def c3Resolved : SegmentInput :=
  { StartPosition := some c3StartPose, EndPosition := some c3EndPose
  , StartConfiguration := some [-1], EndConfiguration := some [1]
  , frame := some c3Frame }

/-- Claim C3, counterexample: a concrete segment (a 1-DOF frame tracing the
parabola (v, v^2, 0) from configuration -1 to 1) whose single state constraint
rejects exactly the pose (0, 1, 0).  At resolution 2 the resolved endpoint
poses (-1,1,0) and (1,1,0) give `PathStepCount = 2`, so the sampled fractions
are 0, 1/2 and 1.  At the sampled fraction 1/2 the joint-space interpolated
configuration is 0, whose pose (0, 0, 0) passes the constraint, so the real
function returns `(true, nil)`; but the straight-line Cartesian interpolation
of the endpoint poses at that same sampled fraction is (0, 1, 0), which
violates the constraint — an implementation that also checked states along
straight-line Cartesian interpolation at the sampled fractions would fail
here.  This refutes the claim that intermediate states are checked along both
interpolations. -/
theorem checkStateConstraintsAcrossSegment_no_cartesian_check_counterexample :
    c3Seg.resolveInputsToPositions = Except.ok c3Resolved ∧
    c3Resolved.stepsOf 2 = 2 ∧
    c3Handler.CheckStateConstraintsAcrossSegment c3Seg 2 = (true, none) ∧
    cartesianLerp c3StartPose c3EndPose ((1 : ℚ) / (c3Resolved.stepsOf 2 : ℚ)) =
      chordMidPose ∧
    (c3Handler.CheckStateConstraints
      { Position := some (cartesianLerp c3StartPose c3EndPose
          ((1 : ℚ) / (c3Resolved.stepsOf 2 : ℚ)))
      , Configuration := none, frame := none }).1 = false := by
  refine ⟨by with_unfolding_all rfl, by with_unfolding_all rfl, ?_,
    by with_unfolding_all rfl, by with_unfolding_all rfl⟩
  with_unfolding_all rfl

/-- Claim C3, amended: when checking state constraints across a segment, the
number of interpolation steps is `PathStepCount` of the resolved endpoint
poses and the resolution (proportional to the Cartesian/orientation distance
travelled), and the intermediate states checked are exactly the joint-space
interpolations of the configuration between the segment endpoints — the
states along straight-line Cartesian interpolation are not separately
checked. -/
theorem checkStateConstraintsAcrossSegment_joint_space_interpolation (c : ConstraintHandler) (ci cir : SegmentInput) (resolution : ℚ)
    (hres : ci.resolveInputsToPositions = Except.ok cir) :
    cir.stepsOf resolution =
      PathStepCount (cir.StartPosition.getD Pose.zero) (cir.EndPosition.getD Pose.zero)
        resolution ∧
    (c.CheckStateConstraintsAcrossSegment ci resolution = (true, none) ↔
      ∀ i, i ≤ PathStepCount (cir.StartPosition.getD Pose.zero)
          (cir.EndPosition.getD Pose.zero) resolution →
        c.okAt cir resolution i = true) := by
  have hq : cir.stepsOf resolution =
      PathStepCount (cir.StartPosition.getD Pose.zero) (cir.EndPosition.getD Pose.zero)
        resolution := rfl
  refine ⟨rfl, ?_, ?_⟩
  · intro h i hi
    rw [checkAcross_of_resolve_ok c resolution hres] at h
    have h1 : (c.checkAcrossAux cir.frame cir.StartConfiguration cir.EndConfiguration
        (cir.stepsOf resolution) (cir.stepsOf resolution + 1) 0 none).1 = true := by
      rw [h]
    exact checkAcrossAux_true_implies c _ _ _ _ _ 0 none h1 i (by omega) (by omega)
  · intro hall
    rw [checkAcross_of_resolve_ok c resolution hres]
    exact checkAcrossAux_all_ok c _ _ _ _ _ 0 none
      (fun j h1 h2 => hall j (by omega))

theorem checkStateConstraintsAcrossSegment_joint_space_interpolation_witness :
    c3Handler.CheckStateConstraintsAcrossSegment c3Seg 1 = (true, none) :=
  (checkStateConstraintsAcrossSegment_joint_space_interpolation c3Handler c3Seg c3Resolved 1 (by with_unfolding_all rfl)).2.mpr
    (by with_unfolding_all decide)

def c2Handler : ConstraintHandler :=
  { segmentConstraints := [("always", fun _ => true)]
  , stateConstraints := [("below_one", fun st =>
      match st.Position with
      | some p => decide (p.pt.x < 1)
      | none => false)] }

def c2Sub : SegmentInput :=
  { StartPosition := none, EndPosition := none
  , StartConfiguration := some [0], EndConfiguration := some [2/3], frame := none }

theorem checkSegmentAndStateValidity_characterization_witness :
    c2Handler.CheckSegmentAndStateValidity c1Seg 1 = (false, some c2Sub) := by
  have h := (checkSegmentAndStateValidity_characterization c2Handler c1Seg c1SegResolved 1 (by with_unfolding_all rfl)).2 c2Sub
    (by with_unfolding_all rfl) (by with_unfolding_all rfl)
  exact h.trans (by with_unfolding_all rfl)

/-- Claim C4, counterexample: the translational frame with axis (3, 4, 0) and
limit {-30, 30} maps input 5 to the pose point (3, 4, 0) — the unit axis
(3/5, 4/5, 0) scaled by 5 — not to the claimed (15, 20, 0), which lies at
squared distance 400 from the computed point, far outside any floating
tolerance.  This matches frame_test.go lines 47-52, which expect (3, 4, 0). -/
theorem prismaticFrame_unit_axis_counterexample :
    (NewTranslationalFrame "test" { x := 3, y := 4, z := 0 }
        { min := -30, max := 30 }).Transform [5] =
      Except.ok { pt := { x := 3, y := 4, z := 0 }, orient := Orient.zero } ∧
    Vec3.distSq { x := 3, y := 4, z := 0 } { x := 15, y := 20, z := 0 } = 400 ∧
    ¬ Vec3.distSq { x := 3, y := 4, z := 0 } { x := 15, y := 20, z := 0 } < 1 / 100000000 := by
  refine ⟨by with_unfolding_all rfl, by with_unfolding_all decide, by with_unfolding_all decide⟩

/-- Claim C4, amended: a translational frame constructed with axis (3, 4, 0)
and limit {-30, 30} maps the single input 5 to the pose point (3, 4, 0)
(exactly, in this rational embedding), because the transform scales the unit
axis by the scalar input. -/
theorem prismaticFrame_input5_point :
    (NewTranslationalFrame "test" { x := 3, y := 4, z := 0 }
        { min := -30, max := 30 }).Transform [5] =
      Except.ok { pt := { x := 3, y := 4, z := 0 }, orient := Orient.zero } := by
  with_unfolding_all rfl

/-- Claim C5, counterexample: the out-of-bounds error of a single-DOF frame is
built from the offending value and the violated limit alone
(frame_test.go lines 64-68: `errors.Errorf("%.5f %s %.5f", value,
OOBErrString, limit)`), so two frames that differ only in their name produce
the identical error — the error includes no identifying frame/joint name,
refuting that part of the claim. -/
theorem oob_error_identical_across_names_counterexample :
    (NewTranslationalFrame "frameA" { x := 3, y := 4, z := 0 }
        { min := -30, max := 30 }).Transform [50] =
      Except.error (FrameError.oob 50 { min := -30, max := 30 }) ∧
    (NewTranslationalFrame "frameB" { x := 3, y := 4, z := 0 }
        { min := -30, max := 30 }).Transform [50] =
      (NewTranslationalFrame "frameA" { x := 3, y := 4, z := 0 }
        { min := -30, max := 30 }).Transform [50] ∧
    (NewRotationalFrame "frameA" { x := 1, y := 0, z := 0 }
        { min := -2, max := 2 }).Transform [3] =
      (NewRotationalFrame "frameB" { x := 1, y := 0, z := 0 }
        { min := -2, max := 2 }).Transform [3] := by
  refine ⟨by with_unfolding_all rfl, by with_unfolding_all rfl, by with_unfolding_all rfl⟩

/-- Claim C5, amended: for every single-DOF frame (translational or
rotational), `Transform` with an input whose length is not 1 returns the
wrong-length error; with a value strictly outside the frame's {min,max} limit
it returns an out-of-bounds error carrying the offending numeric value and
the violated limit (but no frame/joint name); and with a boundary value
exactly equal to min or max it succeeds. -/
theorem singleDOF_transform_validation (tf : translationalFrame) (rf : rotationalFrame)
    (inputs : List ℚ) (v : ℚ) :
    (inputs.length ≠ 1 →
      tf.Transform inputs = Except.error (FrameError.wrongLength inputs.length 1) ∧
      rf.Transform inputs = Except.error (FrameError.wrongLength inputs.length 1)) ∧
    (v < tf.limit.min ∨ v > tf.limit.max →
      tf.Transform [v] = Except.error (FrameError.oob v tf.limit)) ∧
    (v < rf.limit.min ∨ v > rf.limit.max →
      rf.Transform [v] = Except.error (FrameError.oob v rf.limit)) ∧
    (tf.limit.min ≤ v → v ≤ tf.limit.max →
      tf.Transform [v] =
        Except.ok { pt := Vec3.scale v tf.transAxis, orient := Orient.zero }) ∧
    (rf.limit.min ≤ v → v ≤ rf.limit.max →
      rf.Transform [v] =
        Except.ok { pt := Vec3.zero, orient := { ax := rf.rotAxis, theta := v } }) := by
  refine ⟨?_, ?_, ?_, ?_, ?_⟩
  · intro hlen
    cases inputs with
    | nil => exact ⟨rfl, rfl⟩
    | cons a tail =>
      cases tail with
      | nil => exact absurd rfl hlen
      | cons b rest => exact ⟨rfl, rfl⟩
  · intro h
    show (if v < tf.limit.min ∨ v > tf.limit.max then
        Except.error (FrameError.oob v tf.limit)
      else Except.ok ({ pt := Vec3.scale v tf.transAxis, orient := Orient.zero } : Pose)) =
      Except.error (FrameError.oob v tf.limit)
    rw [if_pos h]
  · intro h
    show (if v < rf.limit.min ∨ v > rf.limit.max then
        Except.error (FrameError.oob v rf.limit)
      else Except.ok ({ pt := Vec3.zero, orient := { ax := rf.rotAxis, theta := v } } : Pose)) =
      Except.error (FrameError.oob v rf.limit)
    rw [if_pos h]
  · intro hmin hmax
    show (if v < tf.limit.min ∨ v > tf.limit.max then
        Except.error (FrameError.oob v tf.limit)
      else Except.ok ({ pt := Vec3.scale v tf.transAxis, orient := Orient.zero } : Pose)) =
      Except.ok ({ pt := Vec3.scale v tf.transAxis, orient := Orient.zero } : Pose)
    rw [if_neg (by simp only [not_or]; exact ⟨not_lt.mpr hmin, not_lt.mpr hmax⟩)]
  · intro hmin hmax
    show (if v < rf.limit.min ∨ v > rf.limit.max then
        Except.error (FrameError.oob v rf.limit)
      else Except.ok ({ pt := Vec3.zero, orient := { ax := rf.rotAxis, theta := v } } : Pose)) =
      Except.ok ({ pt := Vec3.zero, orient := { ax := rf.rotAxis, theta := v } } : Pose)
    rw [if_neg (by simp only [not_or]; exact ⟨not_lt.mpr hmin, not_lt.mpr hmax⟩)]

theorem singleDOF_transform_validation_witness :
    (NewTranslationalFrame "test" { x := 3, y := 4, z := 0 }
        { min := -30, max := 30 }).Transform [0, 20, 0] =
      Except.error (FrameError.wrongLength 3 1) ∧
    (NewTranslationalFrame "test" { x := 3, y := 4, z := 0 }
        { min := -30, max := 30 }).Transform [50] =
      Except.error (FrameError.oob 50 { min := -30, max := 30 }) ∧
    (NewTranslationalFrame "test" { x := 3, y := 4, z := 0 }
        { min := -30, max := 30 }).Transform [30] =
      Except.ok { pt := { x := 18, y := 24, z := 0 }, orient := Orient.zero } ∧
    (NewRotationalFrame "rot" { x := 1, y := 0, z := 0 }
        { min := -2, max := 2 }).Transform [2] =
      Except.ok { pt := Vec3.zero
                , orient := { ax := { x := 1, y := 0, z := 0 }, theta := 2 } } := by
  refine ⟨?_, ?_, ?_, ?_⟩
  · exact ((singleDOF_transform_validation (NewTranslationalFrame "test" { x := 3, y := 4, z := 0 }
      { min := -30, max := 30 }) (NewRotationalFrame "rot" { x := 1, y := 0, z := 0 }
      { min := -2, max := 2 }) [0, 20, 0] 0).1 (by decide)).1
  · exact (singleDOF_transform_validation (NewTranslationalFrame "test" { x := 3, y := 4, z := 0 }
      { min := -30, max := 30 }) (NewRotationalFrame "rot" { x := 1, y := 0, z := 0 }
      { min := -2, max := 2 }) [] 50).2.1 (by with_unfolding_all decide)
  · exact ((singleDOF_transform_validation (NewTranslationalFrame "test" { x := 3, y := 4, z := 0 }
      { min := -30, max := 30 }) (NewRotationalFrame "rot" { x := 1, y := 0, z := 0 }
      { min := -2, max := 2 }) [] 30).2.2.2.1 (by with_unfolding_all decide)
      (by with_unfolding_all decide)).trans (by with_unfolding_all rfl)
  · exact ((singleDOF_transform_validation (NewTranslationalFrame "test" { x := 3, y := 4, z := 0 }
      { min := -30, max := 30 }) (NewRotationalFrame "rot" { x := 1, y := 0, z := 0 }
      { min := -2, max := 2 }) [] 2).2.2.2.2 (by with_unfolding_all decide)
      (by with_unfolding_all decide)).trans (by with_unfolding_all rfl)

/-- Whether an Except is a success. -/
def exceptOk : Except ε α → Bool
  | Except.ok _ => true
  | Except.error _ => false

theorem addJoints_ok_all : ∀ (js : List JointConfig) acc res,
    addJoints js acc = Except.ok res → ∀ j ∈ js, exceptOk j.ToFrame = true := by
  intro js
  induction js with
  | nil => intro acc res _ j hj; cases hj
  | cons a rest ih =>
    intro acc res h j hj
    obtain ⟨ts, pm⟩ := acc
    unfold addJoints at h
    cases hta : a.ToFrame with
    | error e => rw [hta] at h; simp at h
    | ok fr =>
      rw [hta] at h
      cases hj with
      | head => rw [hta]; rfl
      | tail _ hmem => exact ih _ res h j hmem

theorem parse_of_build_err (cfg : ModelConfig) (modelName : String) (e : ParseErr)
    (h : cfg.buildTransforms = Except.error e) :
    cfg.ParseConfig modelName = Except.error e := by
  unfold ModelConfig.ParseConfig
  rw [h]

theorem parse_of_build_ok (cfg : ModelConfig) (modelName : String)
    (ts : List (String × ModelFrame)) (pm : List (String × String))
    (h : cfg.buildTransforms = Except.ok (ts, pm)) :
    cfg.ParseConfig modelName =
      (if (endEffectorsOf ts pm).length > 1 then
        Except.error ParseErr.moreThanOneEndEffector
      else
        match endEffectorsOf ts pm with
        | [] => Except.error ParseErr.needOneEndEffector
        | eename :: _ =>
          match sortTransforms ts pm eename with
          | Except.error e => Except.error e
          | Except.ok ordered =>
            Except.ok { name := if modelName == "" then cfg.name else modelName
                      , OrdTransforms := ordered }) := by
  unfold ModelConfig.ParseConfig
  rw [h]

theorem modelConfig_parse_validation (cfg : ModelConfig) (modelName : String) (j : JointConfig) :
    ((cfg.kinParamType = "SVA" ∨ cfg.kinParamType = "") →
      ((∃ l ∈ cfg.links, l.id = World) →
        cfg.ParseConfig modelName = Except.error ParseErr.reservedWorldLink) ∧
      ((∀ l ∈ cfg.links, l.id ≠ World) → (∃ jw ∈ cfg.joints, jw.id = World) →
        cfg.ParseConfig modelName = Except.error ParseErr.reservedWorldJoint) ∧
      (∀ m, cfg.ParseConfig modelName = Except.ok m →
        ∀ jc ∈ cfg.joints, exceptOk jc.ToFrame = true)) ∧
    (exceptOk j.ToFrame = true ↔ (j.typ = PrismaticJoint ∨ j.typ = RevoluteJoint)) ∧
    ((j.typ = FixedJoint ∨ j.typ = ContinuousJoint) →
      j.ToFrame = Except.error (ParseErr.unsupportedJointType j.typ)) ∧
    (∀ ts pm, cfg.buildTransforms = Except.ok (ts, pm) →
      (endEffectorsOf ts pm = [] →
        cfg.ParseConfig modelName = Except.error ParseErr.needOneEndEffector) ∧
      ((endEffectorsOf ts pm).length > 1 →
        cfg.ParseConfig modelName = Except.error ParseErr.moreThanOneEndEffector)) := by
  refine ⟨?_, ?_, ?_, ?_⟩
  · intro hSVA
    have hSVAb : (cfg.kinParamType == "SVA") = true ∨ (cfg.kinParamType == "") = true := by
      cases hSVA with
      | inl h => exact Or.inl (by simp [h])
      | inr h => exact Or.inr (by simp [h])
    refine ⟨?_, ?_, ?_⟩
    · intro hex
      have hany : cfg.links.any (fun l => l.id == World) = true := by
        simp only [List.any_eq_true]
        obtain ⟨l, hl, hid⟩ := hex
        exact ⟨l, hl, by simp [hid]⟩
      refine parse_of_build_err cfg modelName _ ?_
      unfold ModelConfig.buildTransforms
      rw [if_pos hSVAb, if_pos hany]
    · intro hnone hex
      have hlinks : cfg.links.any (fun l => l.id == World) = false := by
        simp only [List.any_eq_false]
        intro l hl
        simp [hnone l hl]
      have hjany : cfg.joints.any (fun jw => jw.id == World) = true := by
        simp only [List.any_eq_true]
        obtain ⟨jw, hjw, hid⟩ := hex
        exact ⟨jw, hjw, by simp [hid]⟩
      refine parse_of_build_err cfg modelName _ ?_
      unfold ModelConfig.buildTransforms
      rw [if_pos hSVAb, if_neg (by simp [hlinks]), if_pos hjany]
    · intro m hok jc hjc
      cases hb : cfg.buildTransforms with
      | error e =>
        rw [parse_of_build_err cfg modelName e hb] at hok
        simp at hok
      | ok tspm =>
        obtain ⟨ts, pm⟩ := tspm
        unfold ModelConfig.buildTransforms at hb
        rw [if_pos hSVAb] at hb
        split at hb
        · simp at hb
        · split at hb
          · simp at hb
          · exact addJoints_ok_all cfg.joints _ _ hb jc hjc
  · constructor
    · intro hok
      by_cases h1 : j.typ = RevoluteJoint
      · exact Or.inr h1
      · by_cases h2 : j.typ = PrismaticJoint
        · exact Or.inl h2
        · exfalso
          unfold JointConfig.ToFrame at hok
          rw [if_neg (by simp [h1]), if_neg (by simp [h2])] at hok
          simp [exceptOk] at hok
    · intro hor
      unfold JointConfig.ToFrame
      by_cases h1 : j.typ = RevoluteJoint
      · rw [if_pos (by simp [h1])]
        rfl
      · have h2 : j.typ = PrismaticJoint := by
          cases hor with
          | inl h => exact h
          | inr h => exact absurd h h1
        rw [if_neg (by simp [h1]), if_pos (by simp [h2])]
        rfl
  · intro h
    unfold JointConfig.ToFrame
    have h1 : (j.typ == RevoluteJoint) = false := by
      cases h with
      | inl h => rw [h]; rfl
      | inr h => rw [h]; rfl
    have h2 : (j.typ == PrismaticJoint) = false := by
      cases h with
      | inl h => rw [h]; rfl
      | inr h => rw [h]; rfl
    rw [if_neg (by simp [h1]), if_neg (by simp [h2])]
  · intro ts pm hbuild
    constructor
    · intro hee
      rw [parse_of_build_ok cfg modelName ts pm hbuild, hee]
      rfl
    · intro hlen
      rw [parse_of_build_ok cfg modelName ts pm hbuild, if_pos hlen]

def c6FixedJoint : JointConfig :=
  { id := "j1", typ := FixedJoint, parent := "base"
  , axis := { x := 0, y := 0, z := 1 }, max := 1, min := 0 }

def c6Config : ModelConfig :=
  { name := "m", kinParamType := "SVA"
  , links := [{ id := "base", translation := Vec3.zero, orientation := none, parent := World }]
  , joints := [c6FixedJoint]
  , dhParams := [] }

/-- Claim C6, counterexample: the declared joint kinds "fixed" and
"continuous" (part_002 lines 12-13) do not resolve to frames —
`JointConfig.ToFrame` (part_002 lines 117-128) handles only revolute and
prismatic and returns the unsupported-joint-type error for both, and a model
containing a fixed joint fails to parse. -/
theorem fixed_continuous_joints_unsupported_counterexample :
    c6FixedJoint.ToFrame = Except.error (ParseErr.unsupportedJointType FixedJoint) ∧
    JointConfig.ToFrame { c6FixedJoint with typ := ContinuousJoint } =
      Except.error (ParseErr.unsupportedJointType ContinuousJoint) ∧
    c6Config.ParseConfig "" = Except.error (ParseErr.unsupportedJointType FixedJoint) :=
  ⟨by with_unfolding_all rfl, by with_unfolding_all rfl, by with_unfolding_all rfl⟩

def c6WorldLinkConfig : ModelConfig :=
  { name := "m", kinParamType := "SVA"
  , links := [{ id := World, translation := Vec3.zero, orientation := none, parent := World }]
  , joints := [], dhParams := [] }

def c6PrismJoint : JointConfig :=
  { id := "p", typ := PrismaticJoint, parent := World
  , axis := { x := 1, y := 0, z := 0 }, max := 1, min := 0 }

def c6LoopConfig : ModelConfig :=
  { name := "m", kinParamType := ""
  , links := [{ id := "a", translation := Vec3.zero, orientation := none, parent := "a" }]
  , joints := [], dhParams := [] }

def c6TwoConfig : ModelConfig :=
  { name := "m", kinParamType := "SVA"
  , links := [{ id := "a", translation := Vec3.zero, orientation := none, parent := World }
            , { id := "b", translation := Vec3.zero, orientation := none, parent := World }]
  , joints := [], dhParams := [] }

def c6LoopFrame : ModelFrame :=
  ModelFrame.static "a" { pt := Vec3.zero, orient := Orient.zero }

def c6AFrame : ModelFrame :=
  ModelFrame.static "a" { pt := Vec3.zero, orient := Orient.zero }

def c6BFrame : ModelFrame :=
  ModelFrame.static "b" { pt := Vec3.zero, orient := Orient.zero }

theorem modelConfig_parse_validation_witness :
    c6WorldLinkConfig.ParseConfig "" = Except.error ParseErr.reservedWorldLink ∧
    exceptOk c6PrismJoint.ToFrame = true ∧
    c6LoopConfig.ParseConfig "" = Except.error ParseErr.needOneEndEffector ∧
    c6TwoConfig.ParseConfig "" = Except.error ParseErr.moreThanOneEndEffector := by
  refine ⟨?_, ?_, ?_, ?_⟩
  · exact ((modelConfig_parse_validation c6WorldLinkConfig "" c6PrismJoint).1 (Or.inl rfl)).1
      ⟨{ id := World, translation := Vec3.zero, orientation := none, parent := World },
        by with_unfolding_all decide, rfl⟩
  · exact (modelConfig_parse_validation c6WorldLinkConfig "" c6PrismJoint).2.1.mpr (Or.inl rfl)
  · exact ((modelConfig_parse_validation c6LoopConfig "" c6PrismJoint).2.2.2
      [("a", c6LoopFrame)] [("a", "a")] (by with_unfolding_all rfl)).1
      (by with_unfolding_all decide)
  · exact ((modelConfig_parse_validation c6TwoConfig "" c6PrismJoint).2.2.2
      [("b", c6BFrame), ("a", c6AFrame)] [("b", World), ("a", World)]
      (by with_unfolding_all rfl)).2
      (by with_unfolding_all decide)

theorem validateNotNeg_err {f : ℚ} {name : String} {e : MoveReqErr}
    (h : validateNotNeg f name = Except.error e) : e = MoveReqErr.negativeField name := by
  unfold validateNotNeg at h
  split at h
  · injection h with h2; exact h2.symm
  · simp at h

theorem no_replans_of_validateNotNeg {f : ℚ} {name : String} {m : Int} {e : MoveReqErr}
    (heq : validateNotNeg f name = Except.error e)
    (h : Except.error (α := validatedMotionConfiguration) e =
      Except.error (MoveReqErr.exceededReplans m)) : False := by
  injection h with h2
  subst h2
  have hv := validateNotNeg_err heq
  simp at hv

theorem newValidatedMotionCfg_no_replans (mc : Option MotionConfiguration) (m : Int) :
    newValidatedMotionCfg mc ≠ Except.error (MoveReqErr.exceededReplans m) := by
  intro h
  simp only [newValidatedMotionCfg] at h
  split at h
  · simp at h
  next cfg =>
    split at h
    next e heq => exact no_replans_of_validateNotNeg heq h
    next heq =>
      split at h
      next e heq2 => exact no_replans_of_validateNotNeg heq2 h
      next heq2 =>
        split at h
        next e heq3 => exact no_replans_of_validateNotNeg heq3 h
        next heq3 =>
          split at h
          next e heq4 => exact no_replans_of_validateNotNeg heq4 h
          next heq4 =>
            split at h
            next e heq5 => exact no_replans_of_validateNotNeg heq5 h
            next heq5 => simp at h

theorem globeValidate_replan_iff (gReq : MoveOnGlobeReq) (count m : Int) :
    newMoveOnGlobeRequestValidate gReq count =
        Except.error (MoveReqErr.exceededReplans m) ↔
      (0 ≤ gReq.maxReplans ∧ gReq.maxReplans < count ∧ m = gReq.maxReplans) := by
  constructor
  · intro h
    unfold newMoveOnGlobeRequestValidate at h
    split at h
    next e heq =>
      injection h with h2
      subst h2
      unfold replanGate at heq
      split at heq
      next hcond =>
        injection heq with h3
        injection h3.symm with h4
        exact ⟨hcond.1, hcond.2, h4⟩
      next hcond => simp at heq
    next heq =>
      split at h
      next e heq2 =>
        injection h with h2
        subst h2
        exact absurd heq2 (newValidatedMotionCfg_no_replans gReq.motionCfg m)
      next vmc heq2 =>
        split at h
        · simp at h
        · simp at h
  · rintro ⟨h0, hlt, hm⟩
    subst hm
    unfold newMoveOnGlobeRequestValidate replanGate
    rw [if_pos ⟨h0, hlt⟩]

theorem mapValidate_replan_iff (mReq : MoveOnMapReq) (count m : Int) :
    newMoveOnMapRequestValidate mReq count =
        Except.error (MoveReqErr.exceededReplans m) ↔
      (0 ≤ mReq.maxReplans ∧ mReq.maxReplans < count ∧ m = mReq.maxReplans) := by
  constructor
  · intro h
    unfold newMoveOnMapRequestValidate at h
    split at h
    next e heq =>
      injection h with h2
      subst h2
      unfold replanGate at heq
      split at heq
      next hcond =>
        injection heq with h3
        injection h3.symm with h4
        exact ⟨hcond.1, hcond.2, h4⟩
      next hcond => simp at heq
    next heq =>
      split at h
      next e heq2 =>
        injection h with h2
        subst h2
        exact absurd heq2 (newValidatedMotionCfg_no_replans mReq.motionCfg m)
      next vmc heq2 =>
        split at h
        · simp at h
        · simp at h
  · rintro ⟨h0, hlt, hm⟩
    subst hm
    unfold newMoveOnMapRequestValidate replanGate
    rw [if_pos ⟨h0, hlt⟩]

/-- Claim C7: creating a move request (on globe or on map) with a
non-negative configured maximum number of replans fails with the
exceeded-maximum-number-of-replans error exactly when the replan count
exceeds that maximum, so a non-negative maximum always bounds retries; with a
negative configured maximum — and the default `defaultMaxReplans` is -1 — the
error can never occur, so replans are unbounded by design. -/
theorem moveRequest_replan_budget (gReq : MoveOnGlobeReq) (mReq : MoveOnMapReq) (replanCount : Int) :
    (0 ≤ gReq.maxReplans →
      (newMoveOnGlobeRequestValidate gReq replanCount =
          Except.error (MoveReqErr.exceededReplans gReq.maxReplans) ↔
        gReq.maxReplans < replanCount)) ∧
    (gReq.maxReplans < 0 → ∀ m,
      newMoveOnGlobeRequestValidate gReq replanCount ≠
        Except.error (MoveReqErr.exceededReplans m)) ∧
    (0 ≤ mReq.maxReplans →
      (newMoveOnMapRequestValidate mReq replanCount =
          Except.error (MoveReqErr.exceededReplans mReq.maxReplans) ↔
        mReq.maxReplans < replanCount)) ∧
    (mReq.maxReplans < 0 → ∀ m,
      newMoveOnMapRequestValidate mReq replanCount ≠
        Except.error (MoveReqErr.exceededReplans m)) ∧
    defaultMaxReplans = -1 ∧ defaultMaxReplans < 0 := by
  refine ⟨?_, ?_, ?_, ?_, rfl, by decide⟩
  · intro h0
    constructor
    · intro h
      exact ((globeValidate_replan_iff gReq replanCount gReq.maxReplans).mp h).2.1
    · intro hlt
      exact (globeValidate_replan_iff gReq replanCount gReq.maxReplans).mpr ⟨h0, hlt, rfl⟩
  · intro hneg m hcontra
    have := ((globeValidate_replan_iff gReq replanCount m).mp hcontra).1
    omega
  · intro h0
    constructor
    · intro h
      exact ((mapValidate_replan_iff mReq replanCount mReq.maxReplans).mp h).2.1
    · intro hlt
      exact (mapValidate_replan_iff mReq replanCount mReq.maxReplans).mpr ⟨h0, hlt, rfl⟩
  · intro hneg m hcontra
    have := ((mapValidate_replan_iff mReq replanCount m).mp hcontra).1
    omega

def c7GlobeReq : MoveOnGlobeReq :=
  { maxReplans := 2, motionCfg := none, destination := some (1, 2) }

def c7MapReq : MoveOnMapReq :=
  { maxReplans := 2, motionCfg := none, destination := some Pose.zero }

def c7GlobeDefaultReq : MoveOnGlobeReq :=
  { maxReplans := defaultMaxReplans, motionCfg := none, destination := some (1, 2) }

theorem moveRequest_replan_budget_witness :
    newMoveOnGlobeRequestValidate c7GlobeReq 3 =
      Except.error (MoveReqErr.exceededReplans 2) ∧
    newMoveOnMapRequestValidate c7MapReq 3 =
      Except.error (MoveReqErr.exceededReplans 2) ∧
    newMoveOnGlobeRequestValidate c7GlobeDefaultReq 1000000 ≠
      Except.error (MoveReqErr.exceededReplans defaultMaxReplans) := by
  refine ⟨?_, ?_, ?_⟩
  · exact ((moveRequest_replan_budget c7GlobeReq c7MapReq 3).1 (by decide)).mpr (by decide)
  · exact ((moveRequest_replan_budget c7GlobeReq c7MapReq 3).2.2.1 (by decide)).mpr (by decide)
  · exact (moveRequest_replan_budget c7GlobeDefaultReq c7MapReq 1000000).2.1
      (by decide) defaultMaxReplans

theorem executeAux_step_cancel_stopfail (env : ExecEnv) (kb : KinematicBase)
    (dev : DeviationEnv) (len fuel i idx : Nat) (s : String)
    (hc : env.cancelledAt i = true) (hstop : moveRequest.stop kb = some s) :
    executeAux env kb dev len (fuel + 1) i idx =
      { response := ExecuteResponse.empty, err := some (wrapErr env.ctxErr s)
      , stopCalls := [stopContextUsed], writes := [], completed := [] } := by
  unfold executeAux
  rw [if_pos hc, hstop]

theorem executeAux_step_cancel_stopok (env : ExecEnv) (kb : KinematicBase)
    (dev : DeviationEnv) (len fuel i idx : Nat)
    (hc : env.cancelledAt i = true) (hstop : moveRequest.stop kb = none) :
    executeAux env kb dev len (fuel + 1) i idx =
      { response := ExecuteResponse.empty, err := none
      , stopCalls := [stopContextUsed], writes := [], completed := [] } := by
  unfold executeAux
  rw [if_pos hc, hstop]

theorem executeAux_step_goerr_stopfail (env : ExecEnv) (kb : KinematicBase)
    (dev : DeviationEnv) (len fuel i idx : Nat) (e s : String)
    (hc : env.cancelledAt i = false) (hgo : kb.goToInputs i = some e)
    (hstop : moveRequest.stop kb = some s) :
    executeAux env kb dev len (fuel + 1) i idx =
      { response := ExecuteResponse.empty, err := some (wrapErr e s)
      , stopCalls := [stopContextUsed], writes := [], completed := [] } := by
  unfold executeAux
  rw [if_neg (by simp [hc]), hgo, hstop]

theorem executeAux_step_goerr_stopok (env : ExecEnv) (kb : KinematicBase)
    (dev : DeviationEnv) (len fuel i idx : Nat) (e : String)
    (hc : env.cancelledAt i = false) (hgo : kb.goToInputs i = some e)
    (hstop : moveRequest.stop kb = none) :
    executeAux env kb dev len (fuel + 1) i idx =
      { response := ExecuteResponse.empty, err := some e
      , stopCalls := [stopContextUsed], writes := [], completed := [] } := by
  unfold executeAux
  rw [if_neg (by simp [hc]), hgo, hstop]

theorem executeAux_step_success (env : ExecEnv) (kb : KinematicBase)
    (dev : DeviationEnv) (len fuel i idx : Nat)
    (hc : env.cancelledAt i = false) (hgo : kb.goToInputs i = none) :
    executeAux env kb dev len (fuel + 1) i idx =
      { response := (executeAux env kb dev len fuel (i + 1)
          (if i < len - 1 then idx + 1 else idx)).response
      , err := (executeAux env kb dev len fuel (i + 1)
          (if i < len - 1 then idx + 1 else idx)).err
      , stopCalls := (executeAux env kb dev len fuel (i + 1)
          (if i < len - 1 then idx + 1 else idx)).stopCalls
      , writes := (if i < len - 1 then [idx + 1] else []) ++
          (executeAux env kb dev len fuel (i + 1)
            (if i < len - 1 then idx + 1 else idx)).writes
      , completed := i :: (executeAux env kb dev len fuel (i + 1)
          (if i < len - 1 then idx + 1 else idx)).completed } := by
  conv_lhs => unfold executeAux
  rw [if_neg (by simp [hc]), hgo]

theorem executeAux_cancel_event (env : ExecEnv) (kb : KinematicBase)
    (dev : DeviationEnv) (len : Nat) (s : String)
    (hstop : moveRequest.stop kb = some s) :
    ∀ fuel i idx k, i ≤ k → k < i + fuel →
      (∀ j, i ≤ j → j < k → env.cancelledAt j = false ∧ kb.goToInputs j = none) →
      env.cancelledAt k = true →
      (executeAux env kb dev len fuel i idx).err = some (wrapErr env.ctxErr s) ∧
      (executeAux env kb dev len fuel i idx).stopCalls = [stopContextUsed] := by
  intro fuel
  induction fuel with
  | zero => intro i idx k h1 h2 _ _; omega
  | succ n ih =>
    intro i idx k h1 h2 hbef hck
    by_cases hik : i = k
    · subst hik
      rw [executeAux_step_cancel_stopfail env kb dev len n i idx s hck hstop]
      exact ⟨rfl, rfl⟩
    · obtain ⟨hcf, hgo⟩ := hbef i (Nat.le_refl i) (by omega)
      rw [executeAux_step_success env kb dev len n i idx hcf hgo]
      exact ih (i + 1) _ k (by omega) (by omega)
        (fun j hj1 hj2 => hbef j (by omega) hj2) hck

theorem executeAux_goerr_event (env : ExecEnv) (kb : KinematicBase)
    (dev : DeviationEnv) (len : Nat) (e s : String)
    (hstop : moveRequest.stop kb = some s) :
    ∀ fuel i idx k, i ≤ k → k < i + fuel →
      (∀ j, i ≤ j → j < k → env.cancelledAt j = false ∧ kb.goToInputs j = none) →
      env.cancelledAt k = false → kb.goToInputs k = some e →
      (executeAux env kb dev len fuel i idx).err = some (wrapErr e s) ∧
      (executeAux env kb dev len fuel i idx).stopCalls = [stopContextUsed] := by
  intro fuel
  induction fuel with
  | zero => intro i idx k h1 h2 _ _ _; omega
  | succ n ih =>
    intro i idx k h1 h2 hbef hck hgk
    by_cases hik : i = k
    · subst hik
      rw [executeAux_step_goerr_stopfail env kb dev len n i idx e s hck hgk hstop]
      exact ⟨rfl, rfl⟩
    · obtain ⟨hcf, hgo⟩ := hbef i (Nat.le_refl i) (by omega)
      rw [executeAux_step_success env kb dev len n i idx hcf hgo]
      exact ih (i + 1) _ k (by omega) (by omega)
        (fun j hj1 hj2 => hbef j (by omega) hj2) hck hgk

theorem executeAux_zero (env : ExecEnv) (kb : KinematicBase) (dev : DeviationEnv)
    (len i idx : Nat) :
    executeAux env kb dev len 0 i idx =
      { response := (moveRequest.deviatedFromPlan dev (len - 1)).1
      , err := (moveRequest.deviatedFromPlan dev (len - 1)).2
      , stopCalls := [], writes := [], completed := [] } := by
  conv_lhs => unfold executeAux

theorem executeAux_writes_stop_high (env : ExecEnv) (kb : KinematicBase)
    (dev : DeviationEnv) (len : Nat) :
    ∀ fuel i idx, len - 1 ≤ i →
      (executeAux env kb dev len fuel i idx).writes = [] ∧
      (∀ j ∈ (executeAux env kb dev len fuel i idx).completed, i ≤ j) := by
  intro fuel
  induction fuel with
  | zero =>
    intro i idx _
    rw [executeAux_zero]
    exact ⟨rfl, fun j hj => by simp at hj⟩
  | succ n ih =>
    intro i idx hi
    by_cases hc : env.cancelledAt i = true
    · cases hstop : moveRequest.stop kb with
      | some s =>
        rw [executeAux_step_cancel_stopfail env kb dev len n i idx s hc hstop]
        exact ⟨rfl, fun j hj => by simp at hj⟩
      | none =>
        rw [executeAux_step_cancel_stopok env kb dev len n i idx hc hstop]
        exact ⟨rfl, fun j hj => by simp at hj⟩
    · have hcf : env.cancelledAt i = false := by
        cases hb : env.cancelledAt i
        · rfl
        · exact absurd hb hc
      cases hgo : kb.goToInputs i with
      | some e =>
        cases hstop : moveRequest.stop kb with
        | some s =>
          rw [executeAux_step_goerr_stopfail env kb dev len n i idx e s hcf hgo hstop]
          exact ⟨rfl, fun j hj => by simp at hj⟩
        | none =>
          rw [executeAux_step_goerr_stopok env kb dev len n i idx e hcf hgo hstop]
          exact ⟨rfl, fun j hj => by simp at hj⟩
      | none =>
        rw [executeAux_step_success env kb dev len n i idx hcf hgo]
        have hrec := ih (i + 1) (if i < len - 1 then idx + 1 else idx) (by omega)
        refine ⟨?_, ?_⟩
        · show (if i < len - 1 then [idx + 1] else []) ++ _ = _
          rw [if_neg (by omega), hrec.1]
          rfl
        · intro j hj
          rcases List.mem_cons.mp hj with hj1 | hj2
          · omega
          · have := hrec.2 j hj2
            omega

theorem executeAux_writes_filter_map (env : ExecEnv) (kb : KinematicBase)
    (dev : DeviationEnv) (len : Nat) :
    ∀ fuel i, (executeAux env kb dev len fuel i i).writes =
      ((executeAux env kb dev len fuel i i).completed.filter
        (fun j => j < len - 1)).map (fun j => j + 1) := by
  intro fuel
  induction fuel with
  | zero => intro i; rfl
  | succ n ih =>
    intro i
    by_cases hc : env.cancelledAt i = true
    · cases hstop : moveRequest.stop kb with
      | some s => rw [executeAux_step_cancel_stopfail env kb dev len n i i s hc hstop]; rfl
      | none => rw [executeAux_step_cancel_stopok env kb dev len n i i hc hstop]; rfl
    · have hcf : env.cancelledAt i = false := by
        cases hb : env.cancelledAt i
        · rfl
        · exact absurd hb hc
      cases hgo : kb.goToInputs i with
      | some e =>
        cases hstop : moveRequest.stop kb with
        | some s =>
          rw [executeAux_step_goerr_stopfail env kb dev len n i i e s hcf hgo hstop]; rfl
        | none =>
          rw [executeAux_step_goerr_stopok env kb dev len n i i e hcf hgo hstop]; rfl
      | none =>
        rw [executeAux_step_success env kb dev len n i i hcf hgo]
        by_cases hlt : i < len - 1
        · show (if i < len - 1 then [i + 1] else []) ++ _ = _
          rw [if_pos hlt]
          have hrw : (if i < len - 1 then i + 1 else i) = i + 1 := if_pos hlt
          rw [hrw]
          show (i + 1) :: (executeAux env kb dev len n (i + 1) (i + 1)).writes =
            ((i :: (executeAux env kb dev len n (i + 1) (i + 1)).completed).filter
              (fun j => j < len - 1)).map (fun j => j + 1)
          rw [List.filter_cons_of_pos (by simpa using hlt), List.map_cons, ih (i + 1)]
        · show (if i < len - 1 then [i + 1] else []) ++ _ = _
          rw [if_neg hlt]
          have hrw : (if i < len - 1 then i + 1 else i) = i := if_neg hlt
          rw [hrw]
          have hhigh := executeAux_writes_stop_high env kb dev len n (i + 1) i (by omega)
          show [] ++ (executeAux env kb dev len n (i + 1) i).writes =
            ((i :: (executeAux env kb dev len n (i + 1) i).completed).filter
              (fun j => j < len - 1)).map (fun j => j + 1)
          rw [List.nil_append, hhigh.1,
            List.filter_cons_of_neg (by simpa using hlt)]
          have hfil : (executeAux env kb dev len n (i + 1) i).completed.filter
              (fun j => j < len - 1) = [] := by
            rw [List.filter_eq_nil_iff]
            intro a ha
            have := hhigh.2 a ha
            simp only [decide_eq_true_eq]
            omega
          rw [hfil]
          rfl

theorem executeAux_completed_range (env : ExecEnv) (kb : KinematicBase)
    (dev : DeviationEnv) (len : Nat) :
    ∀ fuel i idx, ∃ m,
      (executeAux env kb dev len fuel i idx).completed = List.range' i m := by
  intro fuel
  induction fuel with
  | zero => intro i idx; exact ⟨0, by rw [executeAux_zero]; rfl⟩
  | succ n ih =>
    intro i idx
    by_cases hc : env.cancelledAt i = true
    · cases hstop : moveRequest.stop kb with
      | some s =>
        exact ⟨0, by rw [executeAux_step_cancel_stopfail env kb dev len n i idx s hc hstop]; rfl⟩
      | none =>
        exact ⟨0, by rw [executeAux_step_cancel_stopok env kb dev len n i idx hc hstop]; rfl⟩
    · have hcf : env.cancelledAt i = false := by
        cases hb : env.cancelledAt i
        · rfl
        · exact absurd hb hc
      cases hgo : kb.goToInputs i with
      | some e =>
        cases hstop : moveRequest.stop kb with
        | some s =>
          exact ⟨0, by
            rw [executeAux_step_goerr_stopfail env kb dev len n i idx e s hcf hgo hstop]; rfl⟩
        | none =>
          exact ⟨0, by
            rw [executeAux_step_goerr_stopok env kb dev len n i idx e hcf hgo hstop]; rfl⟩
      | none =>
        obtain ⟨m, hm⟩ := ih (i + 1) (if i < len - 1 then idx + 1 else idx)
        refine ⟨m + 1, ?_⟩
        rw [executeAux_step_success env kb dev len n i idx hcf hgo]
        show i :: (executeAux env kb dev len n (i + 1)
          (if i < len - 1 then idx + 1 else idx)).completed = List.range' i (m + 1)
        rw [hm, List.range'_succ]

theorem executeAux_completed_success (env : ExecEnv) (kb : KinematicBase)
    (dev : DeviationEnv) (len : Nat) :
    ∀ fuel i idx, ∀ j ∈ (executeAux env kb dev len fuel i idx).completed,
      env.cancelledAt j = false ∧ kb.goToInputs j = none := by
  intro fuel
  induction fuel with
  | zero => intro i idx j hj; rw [executeAux_zero] at hj; simp at hj
  | succ n ih =>
    intro i idx j hj
    by_cases hc : env.cancelledAt i = true
    · cases hstop : moveRequest.stop kb with
      | some s =>
        rw [executeAux_step_cancel_stopfail env kb dev len n i idx s hc hstop] at hj
        simp at hj
      | none =>
        rw [executeAux_step_cancel_stopok env kb dev len n i idx hc hstop] at hj
        simp at hj
    · have hcf : env.cancelledAt i = false := by
        cases hb : env.cancelledAt i
        · rfl
        · exact absurd hb hc
      cases hgo : kb.goToInputs i with
      | some e =>
        cases hstop : moveRequest.stop kb with
        | some s =>
          rw [executeAux_step_goerr_stopfail env kb dev len n i idx e s hcf hgo hstop] at hj
          simp at hj
        | none =>
          rw [executeAux_step_goerr_stopok env kb dev len n i idx e hcf hgo hstop] at hj
          simp at hj
      | none =>
        rw [executeAux_step_success env kb dev len n i idx hcf hgo] at hj
        rcases List.mem_cons.mp hj with hj1 | hj2
        · subst hj1; exact ⟨hcf, hgo⟩
        · exact ih (i + 1) _ j hj2

theorem executeAux_writes_chain (env : ExecEnv) (kb : KinematicBase)
    (dev : DeviationEnv) (len : Nat) :
    ∀ fuel i, List.Chain' (fun a b => b = a + 1)
      (i :: (executeAux env kb dev len fuel i i).writes) := by
  intro fuel
  induction fuel with
  | zero => intro i; rw [executeAux_zero]; simp
  | succ n ih =>
    intro i
    by_cases hc : env.cancelledAt i = true
    · cases hstop : moveRequest.stop kb with
      | some s =>
        rw [executeAux_step_cancel_stopfail env kb dev len n i i s hc hstop]; simp
      | none =>
        rw [executeAux_step_cancel_stopok env kb dev len n i i hc hstop]; simp
    · have hcf : env.cancelledAt i = false := by
        cases hb : env.cancelledAt i
        · rfl
        · exact absurd hb hc
      cases hgo : kb.goToInputs i with
      | some e =>
        cases hstop : moveRequest.stop kb with
        | some s =>
          rw [executeAux_step_goerr_stopfail env kb dev len n i i e s hcf hgo hstop]; simp
        | none =>
          rw [executeAux_step_goerr_stopok env kb dev len n i i e hcf hgo hstop]; simp
      | none =>
        rw [executeAux_step_success env kb dev len n i i hcf hgo]
        by_cases hlt : i < len - 1
        · have hrw : (if i < len - 1 then i + 1 else i) = i + 1 := if_pos hlt
          rw [hrw]
          show List.Chain' (fun a b => b = a + 1)
            (i :: ((if i < len - 1 then [i + 1] else []) ++
              (executeAux env kb dev len n (i + 1) (i + 1)).writes))
          rw [if_pos hlt]
          exact List.chain'_cons.mpr ⟨rfl, ih (i + 1)⟩
        · have hrw : (if i < len - 1 then i + 1 else i) = i := if_neg hlt
          rw [hrw]
          show List.Chain' (fun a b => b = a + 1)
            (i :: ((if i < len - 1 then [i + 1] else []) ++
              (executeAux env kb dev len n (i + 1) i).writes))
          rw [if_neg hlt, List.nil_append,
            (executeAux_writes_stop_high env kb dev len n (i + 1) i (by omega)).1]
          simp

/-- Claim C8: during plan execution, the first actuation error on a waypoint
command, or an observed cancellation of the request context, triggers a stop
of the actuator on a fresh context — `WithTimeout(Background, baseStopTimeout)`
with `baseStopTimeout = 5` seconds, independent of the cancelled request
context — and no further waypoint is attempted; if the stop itself also
fails, the returned error is `errors.Wrap` of the original actuation (or
context) error with the stop error, so the combined message contains both
verbatim and neither error is swallowed. -/
theorem execute_stop_on_fault_or_cancel (env : ExecEnv) (kb : KinematicBase)
    (dev : DeviationEnv) (len startIdx k : Nat)
    (hstart : startIdx ≤ k) (hk : k < len)
    (hbefore : ∀ j, startIdx ≤ j → j < k →
      env.cancelledAt j = false ∧ kb.goToInputs j = none) :
    (∀ s, env.cancelledAt k = true → moveRequest.stop kb = some s →
      (moveRequest.execute env kb dev len startIdx).err =
        some (wrapErr env.ctxErr s) ∧
      (moveRequest.execute env kb dev len startIdx).stopCalls = [stopContextUsed]) ∧
    (∀ e s, env.cancelledAt k = false → kb.goToInputs k = some e →
      moveRequest.stop kb = some s →
      (moveRequest.execute env kb dev len startIdx).err = some (wrapErr e s) ∧
      (moveRequest.execute env kb dev len startIdx).stopCalls = [stopContextUsed]) ∧
    stopContextUsed = GoCtx.withTimeout GoCtx.background baseStopTimeout ∧
    baseStopTimeout = 5 ∧
    (∀ orig stopMsg, wrapErr orig stopMsg = stopMsg ++ ": " ++ orig) := by
  refine ⟨?_, ?_, rfl, rfl, fun _ _ => rfl⟩
  · intro s hck hstop
    exact executeAux_cancel_event env kb dev len s hstop (len - startIdx) startIdx startIdx
      k hstart (by omega) hbefore hck
  · intro e s hck hgk hstop
    exact executeAux_goerr_event env kb dev len e s hstop (len - startIdx) startIdx startIdx
      k hstart (by omega) hbefore hck hgk

def c8Env : ExecEnv := { cancelledAt := fun _ => false, ctxErr := "context canceled" }

def c8CancelEnv : ExecEnv :=
  { cancelledAt := fun i => decide (2 ≤ i), ctxErr := "context canceled" }

def c8Kb : KinematicBase :=
  { goToInputs := fun i => if i = 2 then some "actuator fault" else none
  , stopResult := fun _ => some "stop failed" }

def c8Dev : DeviationEnv :=
  { errorStateAt := fun _ => Except.ok Vec3.zero, planDeviationMM := 1 }

theorem execute_stop_on_fault_or_cancel_witness :
    (moveRequest.execute c8Env c8Kb c8Dev 3 1).err =
      some (wrapErr "actuator fault" "stop failed") ∧
    (moveRequest.execute c8Env c8Kb c8Dev 3 1).stopCalls =
      [GoCtx.withTimeout GoCtx.background 5] ∧
    (moveRequest.execute c8CancelEnv c8Kb c8Dev 3 1).err =
      some (wrapErr "context canceled" "stop failed") := by
  have hbef : ∀ j, 1 ≤ j → j < 2 →
      c8Env.cancelledAt j = false ∧ c8Kb.goToInputs j = none := by
    intro j h1 h2
    have hj : j = 1 := by omega
    subst hj
    exact ⟨rfl, rfl⟩
  have hbef2 : ∀ j, 1 ≤ j → j < 2 →
      c8CancelEnv.cancelledAt j = false ∧ c8Kb.goToInputs j = none := by
    intro j h1 h2
    have hj : j = 1 := by omega
    subst hj
    exact ⟨rfl, rfl⟩
  refine ⟨?_, ?_, ?_⟩
  · exact ((execute_stop_on_fault_or_cancel c8Env c8Kb c8Dev 3 1 2 (by decide) (by decide) hbef).2.1
      "actuator fault" "stop failed" rfl rfl rfl).1
  · exact ((execute_stop_on_fault_or_cancel c8Env c8Kb c8Dev 3 1 2 (by decide) (by decide) hbef).2.1
      "actuator fault" "stop failed" rfl rfl rfl).2
  · exact ((execute_stop_on_fault_or_cancel c8CancelEnv c8Kb c8Dev 3 1 2 (by decide) (by decide) hbef2).1
      "stop failed" rfl rfl).1

/-- Claim C10: the shared waypoint index starts at 1
(`waypointIndexInitial`, move_request.go lines 657-658); during execution the
values written to it are exactly one per successfully completed non-final
waypoint, each write being the successor of the previous value (so the index
advances strictly monotonically by exactly 1 and never decreases), no written
value ever exceeds the index of the final waypoint, the completed waypoints
form a contiguous run from the starting index, and a poller only reads the
index — `replannerPollOnce` passes the value to the poll function and returns
only a response, never an updated index. -/
theorem waypointIndex_single_writer_discipline (env : ExecEnv) (kb : KinematicBase)
    (dev : DeviationEnv) (len : Nat) :
    waypointIndexInitial = 1 ∧
    (moveRequest.execute env kb dev len waypointIndexInitial).writes =
      ((moveRequest.execute env kb dev len waypointIndexInitial).completed.filter
        (fun j => j < len - 1)).map (fun j => j + 1) ∧
    List.Chain' (fun a b => b = a + 1)
      (waypointIndexInitial ::
        (moveRequest.execute env kb dev len waypointIndexInitial).writes) ∧
    (∀ w ∈ (moveRequest.execute env kb dev len waypointIndexInitial).writes,
      w ≤ len - 1) ∧
    (∀ j ∈ (moveRequest.execute env kb dev len waypointIndexInitial).completed,
      env.cancelledAt j = false ∧ kb.goToInputs j = none) ∧
    (∃ m, (moveRequest.execute env kb dev len waypointIndexInitial).completed =
      List.range' waypointIndexInitial m) ∧
    (∀ pollFn idx, replannerPollOnce pollFn idx = pollFn idx) := by
  refine ⟨rfl, ?_, ?_, ?_, ?_, ?_, fun _ _ => rfl⟩
  · exact executeAux_writes_filter_map env kb dev len (len - 1) 1
  · exact executeAux_writes_chain env kb dev len (len - 1) 1
  · intro w hw
    have hchar := executeAux_writes_filter_map env kb dev len (len - 1) 1
    rw [show (moveRequest.execute env kb dev len waypointIndexInitial).writes =
      (executeAux env kb dev len (len - 1) 1 1).writes from rfl, hchar] at hw
    obtain ⟨j, hjf, rfl⟩ := List.mem_map.mp hw
    have hj := (List.mem_filter.mp hjf).2
    simp only [decide_eq_true_eq] at hj
    omega
  · exact executeAux_completed_success env kb dev len (len - 1) 1 1
  · exact executeAux_completed_range env kb dev len (len - 1) 1 1

def c10Kb : KinematicBase :=
  { goToInputs := fun _ => none, stopResult := fun _ => none }

theorem waypointIndex_single_writer_discipline_witness :
    3 ≤ 4 - 1 ∧
    (moveRequest.execute c8Env c10Kb c8Dev 4 1).writes = [2, 3] := by
  constructor
  · exact (waypointIndex_single_writer_discipline c8Env c10Kb c8Dev 4).2.2.2.1 3 (by with_unfolding_all decide)
  · with_unfolding_all rfl

theorem frameConfig_parse_never_ok (cfg : FrameConfig) (lif : LinkInFrame) :
    cfg.ParseConfig ≠ Except.ok lif := by
  intro h
  unfold FrameConfig.ParseConfig FrameConfig.Pose at h
  cases hc : cfg.link with
  | some l => rw [hc] at h; simp at h
  | none => rw [hc] at h; simp at h

/-- Claim C9 (code bug): `FrameConfig.Pose` (part_002 lines 100-104) reads
`link := cfg.Link; if link != nil { return nil, ErrNilPose }` — the nil check
is inverted relative to the function's own doc comment ("parse out the Pose
of a LinkConfig and return it if it is valid") and to the error's name
`ErrNilPose`.  A FrameConfig whose Link is present is rejected with the
nil-pose error, and one whose Link is missing dereferences the nil link
pointer (a runtime panic); `FrameConfig.ParseConfig` therefore never produces
a LinkInFrame (`frameConfig_parse_never_ok`). -/
theorem frameConfig_pose_inverted_nil_check :
    FrameConfig.ParseConfig
      { link := some { id := "a", translation := { x := 1, y := 2, z := 3 }
                     , orientation := none, parent := World }
      , geometries := none } = Except.error FrameParseErr.nilPose ∧
    FrameConfig.ParseConfig { link := none, geometries := none } =
      Except.error FrameParseErr.nilPointerPanic :=
  ⟨by with_unfolding_all rfl, by with_unfolding_all rfl⟩
